/-
Verification of the uwrapper repository (src/uwrapper.py) against its
natural-language specification.

The program stages and restores the working directory of the `unison`
synchronization tool across a local host and an optional remote host.
We give a shallow embedding of its filesystem-mutating operations:

* A filesystem is an association list from paths (lists of name
  components) to entries (directory or file).  Lookup returns the first
  entry with the given path, so prepending an entry overwrites.
* `shutil`/`pathlib` operations (`move`, `copytree`, `rmtree`, `mkdir`,
  `unlink`, `copy`) are embedded as list transformers with the same
  success/failure conditions the Python library functions have on the
  cases this program exercises (all moved/copied objects are directories,
  except the single profile-file copy).
* Each remote primitive of the two `RemoteSSH` backends is embedded as
  the idealized effect of the transported shell command on the remote
  (or local, for `scp` pulls) filesystem, followed by the backend's own
  post-condition probe exactly as written in the source.  The transport
  only reports success or failure (`check_output` raises on nonzero
  exit), which the model reflects by `Except`.
* `start` and `restore` are straight-line compositions of those steps;
  an error return (`return -1` or a raised exception) aborts the
  remaining steps and leaves the state reached so far.  `restore`
  additionally records a trace of completed steps, used to settle the
  ordering claim.
-/
import Mathlib

deriving instance DecidableEq for Except

namespace UWrapper

/-- A path is a list of name components (the result of resolving
`~`-expansion; the local home directory is the single component `"~"`,
the remote home directory the single component `"r~"`). -/
abbrev FPath := List String

/-- A filesystem object: a directory or a file with contents. -/
inductive Entry where
  | dir : Entry
  | file (content : String) : Entry
deriving DecidableEq

/-- A filesystem: an association list from paths to entries.  The first
entry with a given path wins, so consing overwrites. -/
abbrev FS := List (FPath × Entry)

/-- `a.leads b` holds when path `a` is an initial segment of path `b`
(so `b` denotes `a` itself or an object inside the tree rooted at `a`). -/
def FPath.leads : FPath → FPath → Bool
  | [], _ => true
  | _, [] => false
  | a :: as, b :: bs => a = b && FPath.leads as bs

/-- First entry stored at `p`, if any. -/
def FS.lookup : FS → FPath → Option Entry
  | [], _ => none
  | (p', e) :: rest, p => if p' = p then some e else FS.lookup rest p

/-- `Path.exists()`. -/
def FS.pathExists (fs : FS) (p : FPath) : Bool := (fs.lookup p).isSome

/-- `Path.is_dir()`. -/
def FS.isDir (fs : FS) (p : FPath) : Bool :=
  match fs.lookup p with
  | some Entry.dir => true
  | _ => false

/-- `any(p.iterdir())`: the directory at `p` has at least one object
inside it (some recorded object lies strictly below `p`). -/
def FS.nonEmptyDir (fs : FS) (p : FPath) : Bool :=
  fs.any (fun x => p.leads x.1 && !(p = x.1 : Bool))

/-- `shutil.rmtree(p)` / `rm -rf p` / `Remove-Item -Recurse p`:
remove the whole tree rooted at `p`. -/
def FS.rmtree : FS → FPath → FS
  | [], _ => []
  | (q, e) :: rest, p =>
    if FPath.leads p q then FS.rmtree rest p
    else (q, e) :: FS.rmtree rest p

/-- Remove every entry recorded exactly at `p` (`Path.unlink()` effect). -/
def FS.erase : FS → FPath → FS
  | [], _ => []
  | (q, e) :: rest, p =>
    if q = p then FS.erase rest p else (q, e) :: FS.erase rest p

/-- The entries of the tree rooted at `src`, re-rooted at `dst`
(the copied-tree part of a copy or move). -/
def FS.subtreeTo : FS → FPath → FPath → FS
  | [], _, _ => []
  | (p, e) :: rest, src, dst =>
    if FPath.leads src p then
      (dst ++ p.drop src.length, e) :: FS.subtreeTo rest src dst
    else
      FS.subtreeTo rest src dst

/-- Rename the tree rooted at `src` to `dst` (the effect of a
successful `os.rename` / `mv` / `Rename-Item` on directories). -/
def FS.moveTree (fs : FS) (src dst : FPath) : FS :=
  fs.subtreeTo src dst ++ fs.rmtree src

/-- Copy the tree rooted at `srcP` of filesystem `src` to `dstP` of
filesystem `dst` (the effect of a successful recursive `scp` between
hosts, or of `shutil.copytree` when `src = dst`). -/
def FS.copyFrom (dst : FS) (src : FS) (srcP dstP : FPath) : FS :=
  src.subtreeTo srcP dstP ++ dst

/-- Errors.  The Python code reports failure either by printing and
returning `-1` (the two consistency aborts and the two restore
preconditions) or by raising (`RuntimeError` from a backend
post-condition probe, `CalledProcessError` from the transport,
`OSError`/`shutil.Error` from a local filesystem call).  Every failure
aborts the run, so one error type suffices; the constructors record
which family of failure occurred. -/
inductive Err where
  /-- `error(...); return -1` when a sync-state directory and its backup
  coexist (`remote = true` for the remote host's check). -/
  | inconsistentState (remote : Bool) : Err
  /-- `error(...); return -1` in `restore` when there is nothing to
  restore (`missingCfg = true` when `~/.unison` exists but the embedded
  profile-file copy is missing). -/
  | restoreState (missingCfg : Bool) : Err
  /-- `RuntimeError` raised by a backend's own post-condition probe. -/
  | remoteOp : Err
  /-- `CalledProcessError`: the transported command itself failed. -/
  | transport : Err
  /-- A local `shutil`/`os` call raised. -/
  | localFs : Err
  /-- A remote profile without a constructed backend (unreachable for
  profiles built by `read_profile`). -/
  | badProfile : Err
deriving DecidableEq

/-- `shutil.move(src, dst)`: fails if `src` is missing; if `dst` is an
existing directory the real destination is `dst/basename(src)`, which
must not already exist; the destination's parent directory must exist
for the underlying `os.rename` to succeed. -/
def shutilMove (fs : FS) (src dst : FPath) : Except Err FS :=
  if !fs.pathExists src then Except.error Err.localFs
  else if fs.isDir dst then
    let real := dst ++ [src.getLastD ""]
    if fs.pathExists real then Except.error Err.localFs
    else Except.ok (fs.moveTree src real)
  else if !fs.isDir dst.dropLast then Except.error Err.localFs
  else Except.ok (fs.moveTree src dst)

/-- `shutil.copytree(src, dst)`: `src` must be a directory and `dst`
must not exist (`dirs_exist_ok` is left at its default); missing
parents of `dst` are created by `os.makedirs`, which the association
list absorbs silently. -/
def copytree (fs : FS) (src dst : FPath) : Except Err FS :=
  if !fs.isDir src then Except.error Err.localFs
  else if fs.pathExists dst then Except.error Err.localFs
  else Except.ok (FS.copyFrom fs fs src dst)

/-- `Path.mkdir()` with default arguments: fails if `p` exists or its
parent is not a directory. -/
def mkdirP (fs : FS) (p : FPath) : Except Err FS :=
  if fs.pathExists p then Except.error Err.localFs
  else if !fs.isDir p.dropLast then Except.error Err.localFs
  else Except.ok ((p, Entry.dir) :: fs)

/-- The non-empty initial segments of `p`, shortest first. -/
def prefixesOf (p : FPath) : List FPath :=
  (List.range p.length).map (fun i => p.take (i + 1))

/-- Create each of the listed paths as a directory where absent. -/
def addAbsentDirs (fs : FS) : List FPath → FS
  | [] => fs
  | q :: rest =>
    if fs.pathExists q then addAbsentDirs fs rest
    else (q, Entry.dir) :: addAbsentDirs fs rest

/-- `Path.mkdir(parents=True, exist_ok=True)`: create `p` and any
missing ancestors; never fails. -/
def mkdirParents (fs : FS) (p : FPath) : FS :=
  addAbsentDirs fs (prefixesOf p)

/-- `Path.unlink()`: fails if `p` is missing. -/
def unlinkP (fs : FS) (p : FPath) : Except Err FS :=
  if fs.pathExists p then Except.ok (fs.erase p) else Except.error Err.localFs

/-- `shutil.copy(src, dst)` with `dst` a full file name: `src` must be
a file and `dst`'s parent a directory; an existing `dst` is
overwritten. -/
def copyFileP (fs : FS) (src dst : FPath) : Except Err FS :=
  match fs.lookup src with
  | some (Entry.file c) =>
    if fs.isDir dst.dropLast then Except.ok ((dst, Entry.file c) :: fs)
    else Except.error Err.localFs
  | _ => Except.error Err.localFs

/-! ## Names, roots and profiles (source lines 15, 300-321) -/

def WRAPPER_NAME : String := "uwrapper"

def UNISON_BACKUP_NAME : String := ".unison_before_" ++ WRAPPER_NAME

def LOCAL_ARC_NAME : String := "archives_local"

def REMOTE_ARC_NAME : String := "archives_remote"

/-- The local home directory (`Path('~').expanduser()`). -/
def homeP : FPath := ["~"]

/-- `Path('~/.unison').expanduser()`: the local sync-state directory. -/
def u_folder : FPath := homeP ++ [".unison"]

/-- The local backup slot for a pre-existing sync-state directory. -/
def u_backup_folder : FPath := homeP ++ [UNISON_BACKUP_NAME]

/-- The remote home directory, resolved once at backend construction
(`echo $HOME` resp. `echo $env:USERPROFILE`). -/
def remoteHomeP : FPath := ["r~"]

/-- `self._remote_unison`: the remote sync-state directory. -/
def remote_unison : FPath := remoteHomeP ++ [".unison"]

/-- `self._remote_backup`: the remote backup slot. -/
def remote_backup : FPath := remoteHomeP ++ [UNISON_BACKUP_NAME]

/-- The dialect of the remote shell, selecting the backend
(`RemoteSSHUnix` vs `RemoteSSHWindows`). -/
inductive RType where
  | Unix : RType
  | Windows : RType
deriving DecidableEq

/-- The `Root` dataclass. -/
structure Root where
  path : String
  is_local : Bool
  remote_name : Option String := none
  remote_type : Option RType := none
deriving DecidableEq

/-- The `Profile` dataclass, restricted to the fields `start` and
`restore` read.  `cfg_file` is the absolute path of the profile file,
`data_folder` the sibling directory derived from its stem. -/
structure Profile where
  cfg_file : FPath
  data_folder : FPath
  contain_remote : Bool
  remote_type : Option RType
deriving DecidableEq

/-- `profile.cfg_file.name`. -/
def Profile.cfgName (p : Profile) : String := p.cfg_file.getLastD ""

/-! ## Remote backends (source lines 96-295)

Each primitive is the idealized effect of the transported command on
the model filesystems, followed by the post-condition probe exactly as
the source writes it.  A command whose own precondition fails (for
example `mv` with a missing source) makes `check_output` raise, which
the model renders as `Err.transport`. -/

/-- `unison_exists()` (both backends probe `<home>/.unison`). -/
def unison_exists (rfs : FS) : Bool := rfs.pathExists remote_unison

/-- `unison_backup_exists()`. -/
def unison_backup_exists (rfs : FS) : Bool := rfs.pathExists remote_backup

/-- POSIX `mv old new`: fails when `old` is missing; when `new` is an
existing directory it moves `old` inside it; an existing destination
object is a failure (this program only ever moves directories). -/
def mvPosix (rfs : FS) (old new : FPath) : Except Err FS :=
  if !rfs.pathExists old then Except.error Err.transport
  else if rfs.isDir new then
    let real := new ++ [old.getLastD ""]
    if rfs.pathExists real then Except.error Err.transport
    else Except.ok (rfs.moveTree old real)
  else if rfs.pathExists new then Except.error Err.transport
  else Except.ok (rfs.moveTree old new)

/-- `Rename-Item -Path old -NewName new`: fails when `old` is missing
or `new` already exists. -/
def renameItemWin (rfs : FS) (old new : FPath) : Except Err FS :=
  if !rfs.pathExists old then Except.error Err.transport
  else if rfs.pathExists new then Except.error Err.transport
  else Except.ok (rfs.moveTree old new)

/-- `RemoteSSHUnix._move` / `RemoteSSHWindows._move`: run the rename,
then re-probe both paths and require `exists(new) && !exists(old)`. -/
def remoteMove (rt : RType) (rfs : FS) (old new : FPath) : Except Err FS :=
  match rt with
  | RType.Unix => do
    let rfs' ← mvPosix rfs old new
    if !rfs'.pathExists old && rfs'.pathExists new then Except.ok rfs'
    else Except.error Err.remoteOp
  | RType.Windows => do
    let rfs' ← renameItemWin rfs old new
    if rfs'.pathExists new && !rfs'.pathExists old then Except.ok rfs'
    else Except.error Err.remoteOp

/-- `move_remote_unison_to_backup()`. -/
def move_remote_unison_to_backup (rt : RType) (rfs : FS) : Except Err FS :=
  remoteMove rt rfs remote_unison remote_backup

/-- `move_remote_backup_to_unison()`. -/
def move_remote_backup_to_unison (rt : RType) (rfs : FS) : Except Err FS :=
  remoteMove rt rfs remote_backup remote_unison

/-- `delete_remote_unison()`.  Unix: `rm -rf` succeeds even on a
missing path, then the probe requires the path gone.  Windows:
`Remove-Item -Recurse` fails on a missing path, then the same probe. -/
def delete_remote_unison (rt : RType) (rfs : FS) : Except Err FS :=
  match rt with
  | RType.Unix =>
    let rfs' := rfs.rmtree remote_unison
    if rfs'.pathExists remote_unison then Except.error Err.remoteOp
    else Except.ok rfs'
  | RType.Windows =>
    if !rfs.pathExists remote_unison then Except.error Err.transport
    else
      let rfs' := rfs.rmtree remote_unison
      if rfs'.pathExists remote_unison then Except.error Err.remoteOp
      else Except.ok rfs'

/-- `scp -r local remote:dst` (push): fails when the local source is
missing; pulls the source tree to `dst`, or inside `dst` when `dst` is
an existing directory. -/
def scpPush (lfs : FS) (src : FPath) (rfs : FS) (dst : FPath) : Except Err FS :=
  if !lfs.pathExists src then Except.error Err.transport
  else if rfs.isDir dst then
    Except.ok (FS.copyFrom rfs lfs src (dst ++ [src.getLastD ""]))
  else if rfs.pathExists dst then Except.error Err.transport
  else Except.ok (FS.copyFrom rfs lfs src dst)

/-- `scp -r remote:src local` (pull), same shape as the push with the
hosts swapped; returns the new local filesystem. -/
def scpPull (rfs : FS) (src : FPath) (lfs : FS) (dst : FPath) : Except Err FS :=
  if !rfs.pathExists src then Except.error Err.transport
  else if lfs.isDir dst then
    Except.ok (FS.copyFrom lfs rfs src (dst ++ [src.getLastD ""]))
  else if lfs.pathExists dst then Except.error Err.transport
  else Except.ok (FS.copyFrom lfs rfs src dst)

/-- `copy_archive_folder_to_remote_unison(archive_folder)`: both
backends push the archive folder to the remote sync-state directory;
only the Unix backend re-probes the destination afterwards
(`_dir_local2remote`, lines 148-162); the Windows backend returns the
transport output unchecked (lines 277-281). -/
def copy_archive_folder_to_remote_unison (rt : RType) (lfs : FS)
    (archive_folder : FPath) (rfs : FS) : Except Err FS :=
  match rt with
  | RType.Unix => do
    let rfs' ← scpPush lfs archive_folder rfs remote_unison
    if !rfs'.pathExists remote_unison then Except.error Err.remoteOp
    else Except.ok rfs'
  | RType.Windows => scpPush lfs archive_folder rfs remote_unison

/-- The post-pull verification of `RemoteSSHUnix.copy_remote_archives_back`
(lines 192-193): the pulled local directory exists, is a directory, and
is non-empty. -/
def copy_back_check (lfs : FS) (archive_folder : FPath) : Bool :=
  lfs.pathExists archive_folder && lfs.isDir archive_folder &&
    lfs.nonEmptyDir archive_folder

/-- `copy_remote_archives_back(archive_folder)`: pull the remote
sync-state directory to the local archive folder.  The Unix backend
(lines 190-199) then requires `copy_back_check`; the Windows backend
(lines 283-289) returns the transport output with no check at all. -/
def copy_remote_archives_back (rt : RType) (rfs : FS) (lfs : FS)
    (archive_folder : FPath) : Except Err FS :=
  match rt with
  | RType.Unix => do
    let lfs' ← scpPull rfs remote_unison lfs archive_folder
    if copy_back_check lfs' archive_folder then Except.ok lfs'
    else Except.error Err.remoteOp
  | RType.Windows => scpPull rfs remote_unison lfs archive_folder

/-! ## The lifecycle state machine (source lines 403-522) -/

/-- The two hosts' filesystems: local first, remote second. -/
abbrev State := FS × FS

/-- Sequencing with abort: run `f` only when the previous step
succeeded, keeping the state reached so far otherwise. -/
def seqS (r : State × Option Err) (f : State → State × Option Err) :
    State × Option Err :=
  match r with
  | (s, none) => f s
  | r => r

/-- `start`, lines 404-415: local preflight.  If `~/.unison` exists:
abort when the backup also exists, else move it to the backup slot. -/
def startLocalPreflight (s : State) : State × Option Err :=
  let (lfs, rfs) := s
  if lfs.pathExists u_folder then
    if lfs.pathExists u_backup_folder then
      (s, some (Err.inconsistentState false))
    else
      match shutilMove lfs u_folder u_backup_folder with
      | Except.ok lfs' => ((lfs', rfs), none)
      | Except.error e => (s, some e)
  else (s, none)

/-- `start`, lines 417-436: the identical two-case check on the remote
host through the backend. -/
def startRemotePreflight (rt : RType) (s : State) : State × Option Err :=
  let (lfs, rfs) := s
  if unison_exists rfs then
    if unison_backup_exists rfs then
      (s, some (Err.inconsistentState true))
    else
      match move_remote_unison_to_backup rt rfs with
      | Except.ok rfs' => ((lfs, rfs'), none)
      | Except.error e => (s, some e)
  else (s, none)

/-- `start`, lines 441-455: local staging.  Without a local staging
archive, create an empty `~/.unison`; otherwise copy the archive tree
into `~/.unison` and relocate the archive into today's dated backup
slot, replacing a same-day slot. -/
def startLocalStaging (p : Profile) (today : String) (s : State) :
    State × Option Err :=
  let (lfs, rfs) := s
  let backup_f := p.data_folder ++ ["archives_backup", today]
  let local_archive_f := p.data_folder ++ [LOCAL_ARC_NAME]
  if !lfs.pathExists local_archive_f then
    match mkdirP lfs u_folder with
    | Except.ok lfs' => ((lfs', rfs), none)
    | Except.error e => (s, some e)
  else
    match copytree lfs local_archive_f u_folder with
    | Except.error e => (s, some e)
    | Except.ok lfs1 =>
      let lfs2 := mkdirParents lfs1 backup_f
      let slot := backup_f ++ [LOCAL_ARC_NAME]
      let lfs3 := if lfs2.pathExists slot then lfs2.rmtree slot else lfs2
      match shutilMove lfs3 local_archive_f slot with
      | Except.ok lfs4 => ((lfs4, rfs), none)
      | Except.error e => ((lfs3, rfs), some e)

/-- `start`, lines 457-473: remote staging.  Without a remote staging
archive nothing happens (the remote sync-state directory is *not*
created, line 462); otherwise push the archive tree to the remote
sync-state directory and relocate the archive into today's dated
backup slot. -/
def startRemoteStaging (p : Profile) (rt : RType) (today : String)
    (s : State) : State × Option Err :=
  let (lfs, rfs) := s
  let backup_f := p.data_folder ++ ["archives_backup", today]
  let remote_archive_f := p.data_folder ++ [REMOTE_ARC_NAME]
  if !lfs.pathExists remote_archive_f then (s, none)
  else
    match copy_archive_folder_to_remote_unison rt lfs remote_archive_f rfs with
    | Except.error e => (s, some e)
    | Except.ok rfs1 =>
      let lfs1 := mkdirParents lfs backup_f
      let slotr := backup_f ++ [REMOTE_ARC_NAME]
      let lfs2 := if lfs1.pathExists slotr then lfs1.rmtree slotr else lfs1
      match shutilMove lfs2 remote_archive_f slotr with
      | Except.ok lfs3 => ((lfs3, rfs1), none)
      | Except.error e => ((lfs2, rfs1), some e)

/-- `start`, line 475: copy the profile file into `~/.unison`. -/
def startCopyCfg (p : Profile) (s : State) : State × Option Err :=
  let (lfs, rfs) := s
  match copyFileP lfs p.cfg_file (u_folder ++ [p.cfgName]) with
  | Except.ok lfs' => ((lfs', rfs), none)
  | Except.error e => (s, some e)

/-- `start(profile)` (lines 403-477), with `today` the current date
string `%Y%m%d`.  On failure the returned state is the one reached by
the completed steps. -/
def start (p : Profile) (today : String) (s : State) : State × Option Err :=
  seqS (startLocalPreflight s) fun s1 =>
  seqS (if p.contain_remote then
          match p.remote_type with
          | some rt => startRemotePreflight rt s1
          | none => (s1, some Err.badProfile)
        else (s1, none)) fun s2 =>
  seqS (startLocalStaging p today s2) fun s3 =>
  seqS (if p.contain_remote then
          match p.remote_type with
          | some rt => startRemoteStaging p rt today s3
          | none => (s3, some Err.badProfile)
        else (s3, none)) fun s4 =>
  startCopyCfg p s4

/-- The steps of `restore`, recorded as they complete (a step appears
in the trace exactly when its filesystem effect has happened). -/
inductive Ev where
  /-- Line 495: delete the embedded profile-file copy. -/
  | unlinkCfg : Ev
  /-- Line 498: move `~/.unison` to the local staging-archive slot. -/
  | moveToLocalArchive : Ev
  /-- Line 502: move the local backup back onto `~/.unison`. -/
  | restoreLocalBackup : Ev
  /-- Line 509: pull the remote sync-state directory (remote op). -/
  | remotePull : Ev
  /-- Lines 515/521: delete the remote sync-state directory (remote op). -/
  | remoteDelete : Ev
  /-- Line 516: move the remote backup onto the sync-state slot. -/
  | remoteMoveBackup : Ev
deriving DecidableEq

/-- `restore`, lines 505-522: the remote phase, entered after the
local steps completed with trace `evsL`.  Pull the remote sync-state
tree into the remote staging-archive slot; then, if a remote backup
exists, delete the current remote sync-state directory and move the
backup onto it; else just delete the remote sync-state directory. -/
def restoreRemotePhase (p : Profile) (s : State) (evsL : List Ev) :
    State × Option Err × List Ev :=
  let (lfs3, rfs) := s
  if p.contain_remote then
    match p.remote_type with
    | none => ((lfs3, rfs), some Err.badProfile, evsL)
    | some rt =>
      let remote_archive := p.data_folder ++ [REMOTE_ARC_NAME]
      match copy_remote_archives_back rt rfs lfs3 remote_archive with
      | Except.error e => ((lfs3, rfs), some e, evsL)
      | Except.ok lfs4 =>
        if unison_backup_exists rfs then
          match delete_remote_unison rt rfs with
          | Except.error e => ((lfs4, rfs), some e, evsL ++ [Ev.remotePull])
          | Except.ok rfs1 =>
            match move_remote_backup_to_unison rt rfs1 with
            | Except.error e =>
              ((lfs4, rfs1), some e, evsL ++ [Ev.remotePull, Ev.remoteDelete])
            | Except.ok rfs2 =>
              ((lfs4, rfs2), none,
                evsL ++ [Ev.remotePull, Ev.remoteDelete, Ev.remoteMoveBackup])
        else
          match delete_remote_unison rt rfs with
          | Except.error e => ((lfs4, rfs), some e, evsL ++ [Ev.remotePull])
          | Except.ok rfs1 =>
            ((lfs4, rfs1), none, evsL ++ [Ev.remotePull, Ev.remoteDelete])
  else ((lfs3, rfs), none, evsL)

/-- `restore(profile)` (lines 480-522).  Returns the final state, the
error if the run aborted, and the trace of completed steps. -/
def restore (p : Profile) (s : State) : State × Option Err × List Ev :=
  let (lfs, rfs) := s
  if !(lfs.pathExists u_folder && lfs.isDir u_folder) then
    (s, some (Err.restoreState false), [])
  else
    let profile_file_in_u := u_folder ++ [p.cfgName]
    if !lfs.pathExists profile_file_in_u then
      (s, some (Err.restoreState true), [])
    else
      match unlinkP lfs profile_file_in_u with
      | Except.error e => (s, some e, [])
      | Except.ok lfs1 =>
        let local_archive := p.data_folder ++ [LOCAL_ARC_NAME]
        match shutilMove lfs1 u_folder local_archive with
        | Except.error e => ((lfs1, rfs), some e, [Ev.unlinkCfg])
        | Except.ok lfs2 =>
          if lfs2.pathExists u_backup_folder then
            match shutilMove lfs2 u_backup_folder u_folder with
            | Except.error e =>
              ((lfs2, rfs), some e, [Ev.unlinkCfg, Ev.moveToLocalArchive])
            | Except.ok lfs3 =>
              restoreRemotePhase p (lfs3, rfs)
                [Ev.unlinkCfg, Ev.moveToLocalArchive, Ev.restoreLocalBackup]
          else
            restoreRemotePhase p (lfs2, rfs)
              [Ev.unlinkCfg, Ev.moveToLocalArchive]

/-! ## Root-address parsing (source lines 335-349)

`parse_root_path` calls `urllib.parse.urlparse`.  We embed the
scheme/netloc/path extraction of CPython 3.11's `urlsplit`
(`Lib/urllib/parse.py`, lines 453-481), which is all the source reads:
removal of tab/CR/LF bytes, scheme detection (a leading run of scheme
characters starting with an ASCII letter, before the first `:`,
lowercased), netloc extraction after `//` up to the next `/`, `?` or
`#`, and stripping of the fragment and query from the remainder.  The
model differs from CPython only where this program cannot observe it:
the netloc bracket check and NFKC check only raise on bracket/non-ASCII
netlocs, and `urlparse`'s params split only changes the result when the
path contains `;`.  `isalpha` is modelled as ASCII-alphabetic. -/

/-- The characters CPython strips from a URL before parsing. -/
def unsafeURLByte (c : Char) : Bool := c = '\t' || c = '\r' || c = '\n'

/-- `scheme_chars` of `urllib.parse`. -/
def schemeChar (c : Char) : Bool :=
  c.isAlpha || c.isDigit || c = '+' || c = '-' || c = '.'

/-- Split a character list at the first `:`, if any: the part before
and the part after. -/
def splitOnColon : List Char → Option (List Char × List Char)
  | [] => none
  | c :: rest =>
    if c = ':' then some ([], rest)
    else
      match splitOnColon rest with
      | none => none
      | some (b, a) => some (c :: b, a)

/-- `_splitnetloc` after the leading `//`: the netloc runs up to the
first `/`, `?` or `#`. -/
def splitNetloc : List Char → List Char × List Char
  | [] => ([], [])
  | c :: rest =>
    if c = '/' || c = '?' || c = '#' then ([], c :: rest)
    else
      let (n, r) := splitNetloc rest
      (c :: n, r)

/-- `urlsplit(url)` restricted to `(scheme, netloc, path)`. -/
def urlparse (url : String) : String × String × String :=
  let l := url.toList.filter (fun c => !unsafeURLByte c)
  let (scheme, rest) :=
    match splitOnColon l with
    | some (before, after) =>
      if before ≠ [] && (before.headD ' ').isAlpha && before.all schemeChar
      then (before.map Char.toLower, after)
      else (([] : List Char), l)
    | none => (([] : List Char), l)
  let (netloc, rest2) :=
    match rest with
    | '/' :: '/' :: r => splitNetloc r
    | _ => (([] : List Char), rest)
  let path := (rest2.takeWhile (fun c => c ≠ '#')).takeWhile (fun c => c ≠ '?')
  (String.mk scheme, String.mk netloc, String.mk path)

/-- The two ways `parse_root_path` can fail: the explicit
`ValueError("Failed to understand this root: ...")`, and the
`IndexError` escaping from `parsed.path[0]`/`[1]`/`[2]` when the path
component is too short. -/
inductive ParseErr where
  | valueError : ParseErr
  | indexError : ParseErr
deriving DecidableEq

/-- `parsed.path.startswith('//')`. -/
def startsWithSlashSlash (s : String) : Bool :=
  match s.toList with
  | c0 :: c1 :: _ => c0 = '/' && c1 = '/'
  | _ => false

/-- `parse_root_path(path)` (lines 335-345).  Python's `and` is
short-circuiting, so `parsed.path[k]` is only evaluated once the
previous conjuncts held; an out-of-range index raises `IndexError`
before the final `ValueError` is reached. -/
def parse_root_path (path : String) : Except ParseErr Root :=
  match urlparse path with
  | (scheme, netloc, upath) =>
    if scheme = "" then Except.ok { path := path, is_local := true }
    else if scheme = "ssh" then
      if startsWithSlashSlash upath then
        Except.ok { path := String.mk (upath.toList.drop 1), is_local := false,
                    remote_name := some netloc, remote_type := some RType.Unix }
      else
        match upath.toList with
        | [] => Except.error ParseErr.indexError
        | c0 :: rest0 =>
          if c0 = '/' then
            match rest0 with
            | [] => Except.error ParseErr.indexError
            | c1 :: rest1 =>
              if c1.isAlpha then
                match rest1 with
                | [] => Except.error ParseErr.indexError
                | c2 :: _ =>
                  if c2 = ':' then
                    Except.ok { path := String.mk (upath.toList.drop 1),
                                is_local := false,
                                remote_name := some netloc,
                                remote_type := some RType.Windows }
                  else Except.error ParseErr.valueError
              else Except.error ParseErr.valueError
          else Except.error ParseErr.valueError
    else Except.error ParseErr.valueError

/-- The three asserted examples of `read_profile` (lines 347-349). -/
example : parse_root_path "/home/xx/" = Except.ok { path := "/home/xx/", is_local := true } := by
  decide

example : parse_root_path "ssh://remote//home/xx/" =
    Except.ok { path := "/home/xx/", is_local := false,
                remote_name := some "remote", remote_type := some RType.Unix } := by
  decide

example : parse_root_path "ssh://wr/d:\\Users\\hc\\code\\" =
    Except.ok { path := "d:\\Users\\hc\\code\\", is_local := false,
                remote_name := some "wr", remote_type := some RType.Windows } := by
  decide

example : urlparse "ssh://host/a" = ("ssh", "host", "/a") := by decide
example : urlparse "ssh://host" = ("ssh", "host", "") := by decide
example : urlparse "ssh://host/" = ("ssh", "host", "/") := by decide
example : urlparse "c:\\foo" = ("c", "", "\\foo") := by decide
example : urlparse "ssh://h//p?q#f" = ("ssh", "h", "//p") := by decide
example : urlparse "SSH://H//p" = ("ssh", "H", "//p") := by decide
example : urlparse "ssh:relative" = ("ssh", "", "relative") := by decide
example : urlparse "ssh://" = ("ssh", "", "") := by decide
example : parse_root_path "ssh://host/a" = Except.error ParseErr.indexError := by decide
example : parse_root_path "ssh://host" = Except.error ParseErr.indexError := by decide
example : parse_root_path "ssh://host/" = Except.error ParseErr.indexError := by decide
example : parse_root_path "ssh://host/1:x" = Except.error ParseErr.valueError := by decide
example : parse_root_path "http://x/y" = Except.error ParseErr.valueError := by decide

/-! ## Path lemmas -/


namespace FPath

theorem leads_cons_cons (x y : String) (as bs : FPath) :
    leads (x :: as) (y :: bs) = ((x = y : Bool) && leads as bs) := rfl

@[simp] theorem leads_nil (b : FPath) : leads [] b = true := by
  cases b <;> rfl

theorem leads_iff {a b : FPath} : leads a b = true ↔ ∃ t, b = a ++ t := by
  induction a generalizing b with
  | nil => simp [leads]
  | cons x as ih =>
    cases b with
    | nil => simp [leads]
    | cons y bs =>
      simp only [leads_cons_cons, Bool.and_eq_true, decide_eq_true_eq, ih,
        List.cons_append, List.cons.injEq]
      constructor
      · rintro ⟨rfl, t, rfl⟩
        exact ⟨t, rfl, rfl⟩
      · rintro ⟨t, rfl, rfl⟩
        exact ⟨rfl, t, rfl⟩

@[simp] theorem leads_refl (l : FPath) : leads l l = true :=
  leads_iff.mpr ⟨[], by simp⟩

@[simp] theorem leads_append (a t : FPath) : leads a (a ++ t) = true :=
  leads_iff.mpr ⟨t, rfl⟩

theorem leads_length {a b : FPath} (h : leads a b = true) :
    a.length ≤ b.length := by
  obtain ⟨t, rfl⟩ := leads_iff.mp h
  simp

theorem append_drop_of_leads {a b : FPath} (h : leads a b = true) :
    a ++ b.drop a.length = b := by
  obtain ⟨t, rfl⟩ := leads_iff.mp h
  simp

theorem leads_trans {a b c : FPath} (h1 : leads a b = true)
    (h2 : leads b c = true) : leads a c = true := by
  obtain ⟨t, rfl⟩ := leads_iff.mp h1
  obtain ⟨u, rfl⟩ := leads_iff.mp h2
  exact leads_iff.mpr ⟨t ++ u, by simp⟩

theorem eq_of_leads_of_length {a b : FPath} (h : leads a b = true)
    (hl : b.length ≤ a.length) : a = b := by
  obtain ⟨t, rfl⟩ := leads_iff.mp h
  have ht : t = [] := by
    cases t with
    | nil => rfl
    | cons x xs => simp at hl
  simp [ht]

/-- Two initial segments of the same path are comparable. -/
theorem leads_comparable {a b q : FPath} (ha : leads a q = true)
    (hb : leads b q = true) : leads a b = true ∨ leads b a = true := by
  induction q generalizing a b with
  | nil =>
    cases a with
    | nil => exact Or.inl (leads_nil b)
    | cons x as => simp [leads] at ha
  | cons z qs ih =>
    cases a with
    | nil => exact Or.inl (leads_nil b)
    | cons x as =>
      cases b with
      | nil => exact Or.inr (leads_nil (x :: as))
      | cons y bs =>
        simp only [leads_cons_cons, Bool.and_eq_true, decide_eq_true_eq]
          at ha hb ⊢
        obtain ⟨rfl, ha⟩ := ha
        obtain ⟨rfl, hb⟩ := hb
        rcases ih ha hb with h | h
        · exact Or.inl ⟨rfl, h⟩
        · exact Or.inr ⟨rfl, h⟩

theorem leads_append_same (l a b : FPath) :
    leads (l ++ a) (l ++ b) = leads a b := by
  induction l with
  | nil => rfl
  | cons x xs ih => simpa [leads_cons_cons] using ih

end FPath

/-- Disjoint trees: neither path is an initial segment of the other. -/
def pathDisj (a b : FPath) : Bool := !FPath.leads a b && !FPath.leads b a

/-- Nothing inside the tree at `b` is inside the disjoint tree at `a`. -/
theorem disj_no_common {a b q : FPath} (hd : pathDisj a b = true)
    (hb : FPath.leads b q = true) : FPath.leads a q = false := by
  simp only [pathDisj, Bool.and_eq_true, Bool.not_eq_true'] at hd
  by_contra h
  have h' : FPath.leads a q = true := by
    cases hq : FPath.leads a q with
    | true => rfl
    | false => exact absurd hq h
  rcases FPath.leads_comparable h' hb with hc | hc <;> simp [hc] at hd

theorem pathDisj_symm {a b : FPath} (h : pathDisj a b = true) :
    pathDisj b a = true := by
  simp only [pathDisj, Bool.and_eq_true] at h ⊢
  exact ⟨h.2, h.1⟩

/-! ## Filesystem lookup lemmas -/

namespace FS

@[simp] theorem lookup_nil (q : FPath) : FS.lookup [] q = none := rfl

@[simp] theorem lookup_cons (p : FPath) (e : Entry) (fs : FS) (q : FPath) :
    FS.lookup ((p, e) :: fs) q = if p = q then some e else fs.lookup q := rfl

theorem pathExists_iff {fs : FS} {q : FPath} :
    fs.pathExists q = true ↔ ∃ e, fs.lookup q = some e := by
  unfold FS.pathExists
  cases fs.lookup q <;> simp

theorem pathExists_eq_false {fs : FS} {q : FPath} :
    fs.pathExists q = false ↔ fs.lookup q = none := by
  unfold FS.pathExists
  cases fs.lookup q <;> simp

theorem isDir_iff {fs : FS} {q : FPath} :
    fs.isDir q = true ↔ fs.lookup q = some Entry.dir := by
  unfold FS.isDir
  cases h : fs.lookup q with
  | none => simp
  | some e => cases e <;> simp

theorem lookup_append (fs gs : FS) (q : FPath) :
    FS.lookup (fs ++ gs) q =
      match fs.lookup q with
      | some e => some e
      | none => gs.lookup q := by
  induction fs with
  | nil => simp
  | cons x rest ih =>
    obtain ⟨p, e⟩ := x
    by_cases hpq : p = q <;> simp_all

theorem rmtree_cons (q : FPath) (e : Entry) (rest : FS) (p : FPath) :
    FS.rmtree ((q, e) :: rest) p =
      if FPath.leads p q then FS.rmtree rest p
      else (q, e) :: FS.rmtree rest p := rfl

theorem lookup_rmtree (fs : FS) (p q : FPath) :
    FS.lookup (fs.rmtree p) q =
      if FPath.leads p q then none else fs.lookup q := by
  induction fs with
  | nil =>
    show FS.lookup [] q = _
    by_cases h : FPath.leads p q = true <;> simp [h]
  | cons x rest ih =>
    obtain ⟨pp, e⟩ := x
    rw [rmtree_cons]
    by_cases h1 : FPath.leads p pp = true
    · rw [if_pos h1, ih]
      by_cases h2 : FPath.leads p q = true
      · simp [h2]
      · have hppq : ¬(pp = q) := by
          intro hh
          rw [hh] at h1
          exact h2 h1
        simp [h2, hppq]
    · rw [if_neg h1, lookup_cons, ih]
      by_cases h2 : pp = q
      · subst h2
        simp [h1]
      · simp [h2]

theorem erase_cons (q : FPath) (e : Entry) (rest : FS) (p : FPath) :
    FS.erase ((q, e) :: rest) p =
      if q = p then FS.erase rest p else (q, e) :: FS.erase rest p := rfl

theorem lookup_erase (fs : FS) (p q : FPath) :
    FS.lookup (fs.erase p) q = if q = p then none else fs.lookup q := by
  induction fs with
  | nil =>
    show FS.lookup [] q = _
    by_cases h : q = p <;> simp [h]
  | cons x rest ih =>
    obtain ⟨pp, e⟩ := x
    rw [erase_cons]
    by_cases h1 : pp = p
    · rw [if_pos h1, ih]
      by_cases h2 : q = p
      · simp [h2]
      · have hppq : ¬(pp = q) := by
          intro hh
          rw [← hh, h1] at h2
          exact h2 rfl
        simp [h2, hppq]
    · rw [if_neg h1, lookup_cons, ih]
      by_cases h2 : pp = q
      · have hqp : ¬(q = p) := by
          intro hh
          rw [← h2] at hh
          exact h1 hh
        simp [h2, hqp]
      · simp [h2]

theorem subtreeTo_cons (p : FPath) (e : Entry) (rest : FS) (src dst : FPath) :
    FS.subtreeTo ((p, e) :: rest) src dst =
      if FPath.leads src p then
        (dst ++ p.drop src.length, e) :: FS.subtreeTo rest src dst
      else FS.subtreeTo rest src dst := rfl

theorem lookup_subtreeTo (fs : FS) (src dst q : FPath) :
    FS.lookup (fs.subtreeTo src dst) q =
      if FPath.leads dst q then fs.lookup (src ++ q.drop dst.length)
      else none := by
  induction fs with
  | nil =>
    show FS.lookup [] q = _
    by_cases h : FPath.leads dst q = true <;> simp [h]
  | cons x rest ih =>
    obtain ⟨p, e⟩ := x
    rw [subtreeTo_cons]
    by_cases hsp : FPath.leads src p = true
    · rw [if_pos hsp, lookup_cons]
      by_cases hq : FPath.leads dst q = true
      · by_cases hkey : dst ++ p.drop src.length = q
        · have hdrop : q.drop dst.length = p.drop src.length := by
            rw [← hkey, List.drop_left]
          have hsrc : src ++ p.drop src.length = p :=
            FPath.append_drop_of_leads hsp
          rw [if_pos hkey, if_pos hq, hdrop, hsrc, lookup_cons, if_pos rfl]
        · have hne : ¬(p = src ++ q.drop dst.length) := by
            intro hp
            apply hkey
            have hdq : p.drop src.length = q.drop dst.length := by
              rw [hp, List.drop_left]
            rw [hdq, FPath.append_drop_of_leads hq]
          rw [if_neg hkey, ih, if_pos hq, if_pos hq, lookup_cons, if_neg hne]
      · have hkey : ¬(dst ++ p.drop src.length = q) := by
          intro hp
          rw [← hp] at hq
          simp at hq
        rw [if_neg hkey, ih, if_neg hq, if_neg hq]
    · rw [if_neg hsp, ih]
      by_cases hq : FPath.leads dst q = true
      · have hne : ¬(p = src ++ q.drop dst.length) := by
          intro hp
          rw [hp] at hsp
          simp at hsp
        rw [if_pos hq, if_pos hq, lookup_cons, if_neg hne]
      · rw [if_neg hq, if_neg hq]

theorem addAbsentDirs_cons (fs : FS) (x : FPath) (rest : List FPath) :
    addAbsentDirs fs (x :: rest) =
      if fs.pathExists x then addAbsentDirs fs rest
      else (x, Entry.dir) :: addAbsentDirs fs rest := rfl

theorem lookup_addAbsentDirs (fs : FS) (l : List FPath) (q : FPath) :
    FS.lookup (addAbsentDirs fs l) q =
      if q ∈ l ∧ fs.lookup q = none then some Entry.dir
      else fs.lookup q := by
  induction l with
  | nil => simp [addAbsentDirs]
  | cons x rest ih =>
    rw [addAbsentDirs_cons]
    by_cases hx : fs.pathExists x = true
    · rw [if_pos hx, ih]
      by_cases hq : q = x
      · subst hq
        obtain ⟨e, he⟩ := pathExists_iff.mp hx
        simp [he]
      · simp [List.mem_cons, hq]
    · rw [if_neg hx, lookup_cons]
      have hx' : fs.pathExists x = false := by
        cases hv : fs.pathExists x with
        | true => exact absurd hv hx
        | false => rfl
      by_cases hq : x = q
      · subst hq
        have hn : fs.lookup x = none := pathExists_eq_false.mp hx'
        simp [hn]
      · rw [if_neg hq, ih]
        have hq2 : ¬(q = x) := fun h => hq (Eq.symm h)
        simp [List.mem_cons, hq2]

theorem lookup_mkdirParents (fs : FS) (p q : FPath) :
    FS.lookup (mkdirParents fs p) q =
      if q ∈ prefixesOf p ∧ fs.lookup q = none then some Entry.dir
      else fs.lookup q := lookup_addAbsentDirs fs (prefixesOf p) q

theorem leads_of_mem_prefixesOf {p q : FPath} (h : q ∈ prefixesOf p) :
    FPath.leads q p = true := by
  simp only [prefixesOf, List.mem_map, List.mem_range] at h
  obtain ⟨i, _, rfl⟩ := h
  exact FPath.leads_iff.mpr ⟨p.drop (i + 1), by simp⟩

theorem length_le_of_mem_prefixesOf {p q : FPath} (h : q ∈ prefixesOf p) :
    q.length ≤ p.length :=
  FPath.leads_length (leads_of_mem_prefixesOf h)

end FS

/-! ## Step characterizations -/

theorem shutilMove_ok {fs : FS} {src dst : FPath}
    (h1 : fs.pathExists src = true) (h2 : fs.isDir dst = false)
    (h3 : fs.isDir dst.dropLast = true) :
    shutilMove fs src dst = Except.ok (fs.moveTree src dst) := by
  unfold shutilMove
  simp [h1, h2, h3]

theorem mkdirP_ok {fs : FS} {p : FPath} (h1 : fs.pathExists p = false)
    (h2 : fs.isDir p.dropLast = true) :
    mkdirP fs p = Except.ok ((p, Entry.dir) :: fs) := by
  unfold mkdirP
  simp [h1, h2]

theorem copyFileP_ok {fs : FS} {src dst : FPath} {c : String}
    (h1 : fs.lookup src = some (Entry.file c))
    (h2 : fs.isDir dst.dropLast = true) :
    copyFileP fs src dst = Except.ok ((dst, Entry.file c) :: fs) := by
  unfold copyFileP
  simp [h1, h2]

/-! ## Shared concrete instances for witnesses -/

/-- A local-only profile: `d/a.prf` with data folder `d/a`. -/
def pLoc : Profile :=
  { cfg_file := ["d", "a.prf"], data_folder := ["d", "a"],
    contain_remote := false, remote_type := none }

/-- A profile with a Unix remote endpoint. -/
def pRem : Profile :=
  { cfg_file := ["d", "a.prf"], data_folder := ["d", "a"],
    contain_remote := true, remote_type := some RType.Unix }

/-- A clean local filesystem: home, profile directory, data folder and
profile file, no sync-state directory, no backup, no staging archives. -/
def lfsBase : FS :=
  [(homeP, Entry.dir), (["d"], Entry.dir), (["d", "a"], Entry.dir),
   (["d", "a.prf"], Entry.file "cfgtext")]

/-! ## Claims -/

/-- C2: for every filesystem state in which the local sync-state
directory and its local backup both exist, `start()` fails with the
inconsistent-state error and performs no mutation: the state after the
failed call is the state before it. -/
theorem C2_start_local_inconsistent_aborts_unchanged (p : Profile)
    (today : String) (lfs rfs : FS)
    (h1 : lfs.pathExists u_folder = true)
    (h2 : lfs.pathExists u_backup_folder = true) :
    start p today (lfs, rfs) =
      ((lfs, rfs), some (Err.inconsistentState false)) := by
  unfold start seqS startLocalPreflight
  simp [h1, h2]

/-- Witness for C2 at a concrete state. -/
theorem C2_witness :
    start pLoc "20260101"
        ((u_folder, Entry.dir) :: (u_backup_folder, Entry.dir) :: lfsBase, []) =
      (((u_folder, Entry.dir) :: (u_backup_folder, Entry.dir) :: lfsBase, []),
        some (Err.inconsistentState false)) :=
  C2_start_local_inconsistent_aborts_unchanged pLoc "20260101"
    ((u_folder, Entry.dir) :: (u_backup_folder, Entry.dir) :: lfsBase) []
    (by decide) (by decide)

/-- C9: when the local sync-state directory is absent, or present but
missing the embedded profile-file copy, `restore()` fails with the
restore-state error and performs no mutation on either host (and no
step of the restore sequence runs). -/
theorem C9_restore_precondition_aborts_unchanged (p : Profile)
    (lfs rfs : FS)
    (h : lfs.lookup u_folder = none ∨
         lfs.pathExists (u_folder ++ [p.cfgName]) = false) :
    ∃ b, restore p (lfs, rfs) = ((lfs, rfs), some (Err.restoreState b), []) := by
  by_cases h1 : (lfs.pathExists u_folder && lfs.isDir u_folder) = true
  · have h2 : lfs.pathExists (u_folder ++ [p.cfgName]) = false := by
      rcases h with h | h
      · exfalso
        have hex : lfs.pathExists u_folder = true := by
          rcases Bool.and_eq_true_iff.mp h1 with ⟨ha, _⟩
          exact ha
        rw [FS.pathExists_eq_false.mpr h] at hex
        exact Bool.false_ne_true hex
      · exact h
    refine ⟨true, ?_⟩
    unfold restore
    simp [h1, h2]
  · have h1' : (lfs.pathExists u_folder && lfs.isDir u_folder) = false := by
      cases hv : (lfs.pathExists u_folder && lfs.isDir u_folder) with
      | true => exact absurd hv h1
      | false => rfl
    refine ⟨false, ?_⟩
    unfold restore
    simp [h1']

/-- Witness for C9 at a concrete state (sync-state directory absent). -/
theorem C9_witness :
    ∃ b, restore pLoc (lfsBase, []) =
      ((lfsBase, []), some (Err.restoreState b), []) :=
  C9_restore_precondition_aborts_unchanged pLoc lfsBase []
    (Or.inl (by decide))

/-- C10: `parse_root_path` is not total over ssh-scheme addresses: on
`ssh://host/a` (scheme `ssh`, path component `/a` of length two, not
starting with `//`) it raises an out-of-range indexing error rather
than returning an endpoint or the documented parse failure; likewise on
`ssh://host` whose path component is empty. -/
theorem C10_parse_root_path_index_error :
    (urlparse "ssh://host/a").1 = "ssh" ∧
    (urlparse "ssh://host/a").2.2 = "/a" ∧
    parse_root_path "ssh://host/a" = Except.error ParseErr.indexError ∧
    parse_root_path "ssh://host" = Except.error ParseErr.indexError := by
  exact ⟨by decide, by decide, by decide, by decide⟩

/-- The three local restore steps. -/
def Ev.isLocal : Ev → Bool
  | Ev.unlinkCfg => true
  | Ev.moveToLocalArchive => true
  | Ev.restoreLocalBackup => true
  | _ => false

/-- The irreversible remote restore steps (deletion, rename). -/
def Ev.isRemoteDestructive : Ev → Bool
  | Ev.remoteDelete => true
  | Ev.remoteMoveBackup => true
  | _ => false

/-- Every local step in the trace happens before every remote step:
after the first non-local step no local step appears. -/
def localsBeforeRemotes (tr : List Ev) : Bool :=
  (tr.dropWhile Ev.isLocal).all (fun e => ! Ev.isLocal e)

/-- Scan: every destructive remote step is preceded by the pull. -/
def pullBeforeDestructAux : Bool → List Ev → Bool
  | _, [] => true
  | seen, e :: rest =>
    if e.isRemoteDestructive && !seen then false
    else pullBeforeDestructAux (seen || (e = Ev.remotePull : Bool)) rest

/-- On the remote host the archival pull precedes every deletion and
rename of the remote sync-state directory. -/
def pullBeforeDestruct (tr : List Ev) : Bool := pullBeforeDestructAux false tr

/-- The remote phase appends one of four event suffixes to the local
trace. -/
theorem restoreRemotePhase_trace (p : Profile) (s : State)
    (evsL : List Ev) :
    ∃ rsuf, (restoreRemotePhase p s evsL).2.2 = evsL ++ rsuf ∧
      (rsuf = [] ∨ rsuf = [Ev.remotePull] ∨
       rsuf = [Ev.remotePull, Ev.remoteDelete] ∨
       rsuf = [Ev.remotePull, Ev.remoteDelete, Ev.remoteMoveBackup]) := by
  obtain ⟨lfs3, rfs⟩ := s
  unfold restoreRemotePhase
  dsimp only
  repeat' split
  all_goals first
    | exact ⟨[], (List.append_nil _).symm, Or.inl rfl⟩
    | exact ⟨[Ev.remotePull], rfl, Or.inr (Or.inl rfl)⟩
    | exact ⟨[Ev.remotePull, Ev.remoteDelete], rfl,
        Or.inr (Or.inr (Or.inl rfl))⟩
    | exact ⟨[Ev.remotePull, Ev.remoteDelete, Ev.remoteMoveBackup], rfl,
        Or.inr (Or.inr (Or.inr rfl))⟩

/-- C6: in every execution of `restore()`, all completed local restore
steps (deleting the embedded profile copy, moving the sync-state
contents to the staging-archive slot, restoring the local backup)
precede every remote step in the trace, and the remote archival pull
precedes every remote deletion or rename; an aborted run stops the
sequence at the failed step. -/
theorem C6_restore_local_before_remote_pull_before_delete (p : Profile)
    (s : State) :
    localsBeforeRemotes (restore p s).2.2 = true ∧
    pullBeforeDestruct (restore p s).2.2 = true := by
  obtain ⟨lfs, rfs⟩ := s
  have phase : ∀ (s' : State) (evsL : List Ev),
      (evsL = [Ev.unlinkCfg, Ev.moveToLocalArchive] ∨
       evsL = [Ev.unlinkCfg, Ev.moveToLocalArchive, Ev.restoreLocalBackup]) →
      localsBeforeRemotes (restoreRemotePhase p s' evsL).2.2 = true ∧
      pullBeforeDestruct (restoreRemotePhase p s' evsL).2.2 = true := by
    intro s' evsL hL
    obtain ⟨rsuf, htr, hcase⟩ := restoreRemotePhase_trace p s' evsL
    rw [htr]
    rcases hL with rfl | rfl <;> rcases hcase with rfl | rfl | rfl | rfl <;>
      exact ⟨rfl, rfl⟩
  unfold restore
  dsimp only
  repeat' split
  all_goals first
    | exact ⟨rfl, rfl⟩
    | exact phase _ _ (Or.inl rfl)
    | exact phase _ _ (Or.inr rfl)

/-! ## Remote-primitive characterizations -/

theorem except_bind_ok {α β : Type} (a : α) (f : α → Except Err β) :
    (Except.ok a >>= f) = f a := rfl

theorem except_bind_error {α β : Type} (e : Err) (f : α → Except Err β) :
    ((Except.error e : Except Err α) >>= f) = Except.error e := rfl

theorem isDir_false_of_not_exists {fs : FS} {p : FPath}
    (h : fs.pathExists p = false) : fs.isDir p = false := by
  unfold FS.pathExists at h
  unfold FS.isDir
  cases hl : fs.lookup p with
  | none => rfl
  | some e => rw [hl] at h; simp at h

theorem pathExists_rmtree_self (fs : FS) (p : FPath) :
    (fs.rmtree p).pathExists p = false := by
  unfold FS.pathExists
  rw [FS.lookup_rmtree]
  simp

theorem bool_eq_false_of_ne_true {b : Bool} (h : ¬b = true) : b = false := by
  cases b with
  | true => exact absurd rfl h
  | false => rfl

theorem ne_true_of_eq_false {b : Bool} (h : b = false) : ¬(b = true) := by
  rw [h]
  exact Bool.false_ne_true

/-- A successful backend `_move` guarantees (by its own probe) that the
old path is gone. -/
theorem remoteMove_ok_old_absent {rt : RType} {rfs : FS} {old new : FPath}
    {rfs' : FS} (h : remoteMove rt rfs old new = Except.ok rfs') :
    rfs'.pathExists old = false := by
  cases rt <;> (unfold remoteMove at h; dsimp only at h)
  · cases hmv : mvPosix rfs old new with
    | error e =>
      rw [hmv, except_bind_error] at h
      exact Except.noConfusion h
    | ok v =>
      rw [hmv, except_bind_ok] at h
      by_cases hc : (!v.pathExists old && v.pathExists new) = true
      · rw [if_pos hc] at h
        injection h with h2
        subst h2
        have h1 := (Bool.and_eq_true_iff.mp hc).1
        simpa using h1
      · rw [if_neg hc] at h
        exact Except.noConfusion h
  · cases hmv : renameItemWin rfs old new with
    | error e =>
      rw [hmv, except_bind_error] at h
      exact Except.noConfusion h
    | ok v =>
      rw [hmv, except_bind_ok] at h
      by_cases hc : (v.pathExists new && !v.pathExists old) = true
      · rw [if_pos hc] at h
        injection h with h2
        subst h2
        have h1 := (Bool.and_eq_true_iff.mp hc).2
        simpa using h1
      · rw [if_neg hc] at h
        exact Except.noConfusion h

/-- When the destination does not exist, a successful backend `_move`
is exactly the tree rename. -/
theorem remoteMove_ok_eq {rt : RType} {rfs : FS} {old new : FPath}
    {rfs' : FS} (hnew : rfs.pathExists new = false)
    (h : remoteMove rt rfs old new = Except.ok rfs') :
    rfs' = rfs.moveTree old new := by
  have hdir : rfs.isDir new = false := isDir_false_of_not_exists hnew
  cases rt <;> (unfold remoteMove at h; dsimp only at h)
  · unfold mvPosix at h
    by_cases h1 : rfs.pathExists old = true
    · rw [if_neg (by simp [h1]), if_neg (by simp [hdir]),
        if_neg (by simp [hnew]), except_bind_ok] at h
      by_cases hc : (!(rfs.moveTree old new).pathExists old &&
          (rfs.moveTree old new).pathExists new) = true
      · rw [if_pos hc] at h
        injection h with h2
        exact h2.symm
      · rw [if_neg hc] at h
        exact Except.noConfusion h
    · rw [if_pos (by simp [bool_eq_false_of_ne_true h1]),
        except_bind_error] at h
      exact Except.noConfusion h
  · unfold renameItemWin at h
    by_cases h1 : rfs.pathExists old = true
    · rw [if_neg (by simp [h1]), if_neg (by simp [hnew]),
        except_bind_ok] at h
      by_cases hc : ((rfs.moveTree old new).pathExists new &&
          !(rfs.moveTree old new).pathExists old) = true
      · rw [if_pos hc] at h
        injection h with h2
        exact h2.symm
      · rw [if_neg hc] at h
        exact Except.noConfusion h
    · rw [if_pos (by simp [bool_eq_false_of_ne_true h1]),
        except_bind_error] at h
      exact Except.noConfusion h

/-- A successful `delete_remote_unison` is exactly the recursive
removal of the remote sync-state tree. -/
theorem delete_remote_unison_ok_eq {rt : RType} {rfs rfs1 : FS}
    (h : delete_remote_unison rt rfs = Except.ok rfs1) :
    rfs1 = rfs.rmtree remote_unison := by
  cases rt <;> (unfold delete_remote_unison at h; dsimp only at h)
  · rw [if_neg (by simp [pathExists_rmtree_self])] at h
    injection h with h2
    exact h2.symm
  · by_cases h1 : rfs.pathExists remote_unison = true
    · rw [if_neg (by simp [h1]),
        if_neg (by simp [pathExists_rmtree_self])] at h
      injection h with h2
      exact h2.symm
    · rw [if_pos (by simp [bool_eq_false_of_ne_true h1])] at h
      exact Except.noConfusion h

/-! ## C3: copyOut verification -/

/-- Remote filesystem for the C3 instances: an *empty* remote
sync-state directory. -/
def rfsC3 : FS := [(remoteHomeP, Entry.dir), (remote_unison, Entry.dir)]

/-- Local filesystem for the C3 instances: data folder present, the
archive destination absent. -/
def lfsC3 : FS := [(["d"], Entry.dir), (["d", "a"], Entry.dir)]

/-- The archive folder `copy_remote_archives_back` pulls into. -/
def afC3 : FPath := ["d", "a", "archives_remote"]

/-- C3 counterexample: pulling the empty remote sync-state directory
succeeds at the transport level and produces an empty local directory,
yet the Windows backend's `copy_remote_archives_back` returns success
instead of raising — the claimed post-pull verification does not exist
in the Windows variant. -/
theorem C3_counterexample :
    copy_remote_archives_back RType.Windows rfsC3 lfsC3 afC3 =
      Except.ok ((afC3, Entry.dir) :: lfsC3) ∧
    copy_back_check ((afC3, Entry.dir) :: lfsC3) afC3 = false := by
  exact ⟨by decide, by decide⟩

/-- C3 amended: the Unix backend raises the remote-operation error
whenever the pulled local directory fails the exists/is-directory/
non-empty verification even though the transport succeeded; the
Windows backend returns the bare transport result with no
verification at all. -/
theorem C3_amended_unix_verifies_windows_does_not :
    (∀ (rfs lfs : FS) (af : FPath) (lfs' : FS),
      scpPull rfs remote_unison lfs af = Except.ok lfs' →
      copy_back_check lfs' af = false →
      copy_remote_archives_back RType.Unix rfs lfs af =
        Except.error Err.remoteOp) ∧
    (∀ (rfs lfs : FS) (af : FPath),
      copy_remote_archives_back RType.Windows rfs lfs af =
        scpPull rfs remote_unison lfs af) := by
  constructor
  · intro rfs lfs af lfs' hpull hcheck
    unfold copy_remote_archives_back
    dsimp only
    rw [hpull, except_bind_ok, if_neg (by simp [hcheck])]
  · intro rfs lfs af
    rfl

/-- Witness for the amended C3: on the concrete empty pull the Unix
backend raises while the transport succeeded. -/
theorem C3_amended_witness :
    copy_remote_archives_back RType.Unix rfsC3 lfsC3 afC3 =
      Except.error Err.remoteOp :=
  C3_amended_unix_verifies_windows_does_not.1 rfsC3 lfsC3 afC3
    ((afC3, Entry.dir) :: lfsC3) (by decide) (by decide)

/-! ## C5: the remote tail of restore -/

/-- On a successful run of the remote phase the final remote
filesystem is: backup present — delete the sync-state tree, then move
the backup onto the sync-state slot; backup absent — just delete the
sync-state tree. -/
theorem restoreRemotePhase_success_remote (p : Profile) (lfs3 rfs : FS)
    (evsL : List Ev) (lfs' rfs' : FS) (tr : List Ev)
    (hcr : p.contain_remote = true)
    (h : restoreRemotePhase p (lfs3, rfs) evsL = ((lfs', rfs'), none, tr)) :
    rfs' = if unison_backup_exists rfs then
             FS.moveTree (FS.rmtree rfs remote_unison) remote_backup
               remote_unison
           else FS.rmtree rfs remote_unison := by
  unfold restoreRemotePhase at h
  dsimp only at h
  rw [if_pos hcr] at h
  cases hrt : p.remote_type with
  | none =>
    rw [hrt] at h
    dsimp only at h
    exact absurd h (by simp)
  | some rt =>
    rw [hrt] at h
    dsimp only at h
    cases hcb : copy_remote_archives_back rt rfs lfs3
        (p.data_folder ++ [REMOTE_ARC_NAME]) with
    | error e =>
      rw [hcb] at h
      dsimp only at h
      exact absurd h (by simp)
    | ok lfs4 =>
      rw [hcb] at h
      dsimp only at h
      by_cases hb : unison_backup_exists rfs = true
      · rw [if_pos hb] at h
        cases hdel : delete_remote_unison rt rfs with
        | error e =>
          rw [hdel] at h
          dsimp only at h
          exact absurd h (by simp)
        | ok rfs1 =>
          rw [hdel] at h
          dsimp only at h
          cases hmv : move_remote_backup_to_unison rt rfs1 with
          | error e =>
            rw [hmv] at h
            dsimp only at h
            exact absurd h (by simp)
          | ok rfs2 =>
            rw [hmv] at h
            dsimp only at h
            have hrfs1 : rfs1 = rfs.rmtree remote_unison :=
              delete_remote_unison_ok_eq hdel
            have hnew : rfs1.pathExists remote_unison = false := by
              rw [hrfs1]
              exact pathExists_rmtree_self rfs remote_unison
            have hrfs2 : rfs2 = rfs1.moveTree remote_backup remote_unison :=
              remoteMove_ok_eq hnew hmv
            have hout : rfs2 = rfs' := congrArg (fun x => x.1.2) h
            rw [← hout, hrfs2, hrfs1, if_pos hb]
      · rw [if_neg hb] at h
        cases hdel : delete_remote_unison rt rfs with
        | error e =>
          rw [hdel] at h
          dsimp only at h
          exact absurd h (by simp)
        | ok rfs1 =>
          rw [hdel] at h
          dsimp only at h
          have hrfs1 : rfs1 = rfs.rmtree remote_unison :=
            delete_remote_unison_ok_eq hdel
          have hout : rfs1 = rfs' := congrArg (fun x => x.1.2) h
          rw [← hout, hrfs1, if_neg hb]

/-- C5: for every profile with a remote endpoint, a successful
`restore()` ends on the remote host with: if a remote backup existed,
the current remote sync-state directory deleted and the backup moved
onto the sync-state slot; otherwise the current remote sync-state
directory simply deleted.  (The pull that precedes this never touches
the remote filesystem, so the decision reads the input remote state.) -/
theorem C5_restore_remote_tail (p : Profile) (lfs rfs lfs' rfs' : FS)
    (tr : List Ev) (hcr : p.contain_remote = true)
    (h : restore p (lfs, rfs) = ((lfs', rfs'), none, tr)) :
    rfs' = if unison_backup_exists rfs then
             FS.moveTree (FS.rmtree rfs remote_unison) remote_backup
               remote_unison
           else FS.rmtree rfs remote_unison := by
  unfold restore at h
  dsimp only at h
  by_cases h1 : (!(lfs.pathExists u_folder && lfs.isDir u_folder)) = true
  · rw [if_pos h1] at h
    exact absurd h (by simp)
  · rw [if_neg h1] at h
    by_cases h2 : (!lfs.pathExists (u_folder ++ [p.cfgName])) = true
    · rw [if_pos h2] at h
      exact absurd h (by simp)
    · rw [if_neg h2] at h
      cases hu : unlinkP lfs (u_folder ++ [p.cfgName]) with
      | error e =>
        rw [hu] at h
        dsimp only at h
        exact absurd h (by simp)
      | ok lfs1 =>
        rw [hu] at h
        dsimp only at h
        cases hm : shutilMove lfs1 u_folder
            (p.data_folder ++ [LOCAL_ARC_NAME]) with
        | error e =>
          rw [hm] at h
          dsimp only at h
          exact absurd h (by simp)
        | ok lfs2 =>
          rw [hm] at h
          dsimp only at h
          by_cases hb : lfs2.pathExists u_backup_folder = true
          · rw [if_pos hb] at h
            cases hm2 : shutilMove lfs2 u_backup_folder u_folder with
            | error e =>
              rw [hm2] at h
              dsimp only at h
              exact absurd h (by simp)
            | ok lfs3 =>
              rw [hm2] at h
              dsimp only at h
              exact restoreRemotePhase_success_remote p lfs3 rfs _ lfs' rfs'
                tr hcr h
          · rw [if_neg hb] at h
            exact restoreRemotePhase_success_remote p lfs2 rfs _ lfs' rfs'
              tr hcr h

/-- Local filesystem for the C5 witness: sync-state directory with the
embedded profile copy. -/
def lfsC5 : FS :=
  [(homeP, Entry.dir), (u_folder, Entry.dir),
   (["~", ".unison", "a.prf"], Entry.file "cfgtext"),
   (["d"], Entry.dir), (["d", "a"], Entry.dir)]

/-- Remote filesystem for the C5 witness: non-empty sync-state
directory and a backup. -/
def rfsC5 : FS :=
  [(remoteHomeP, Entry.dir), (remote_unison, Entry.dir),
   (["r~", ".unison", "arc"], Entry.file "arcdata"),
   (remote_backup, Entry.dir)]

/-- Witness for C5 on a concrete successful remote restore with a
remote backup present. -/
theorem C5_witness :
    (restore pRem (lfsC5, rfsC5)).1.2 =
      FS.moveTree (FS.rmtree rfsC5 remote_unison) remote_backup
        remote_unison := by
  have h : restore pRem (lfsC5, rfsC5) =
      (((restore pRem (lfsC5, rfsC5)).1.1,
        (restore pRem (lfsC5, rfsC5)).1.2), none,
        (restore pRem (lfsC5, rfsC5)).2.2) := by decide
  have h2 := C5_restore_remote_tail pRem lfsC5 rfsC5
    (restore pRem (lfsC5, rfsC5)).1.1 (restore pRem (lfsC5, rfsC5)).1.2
    (restore pRem (lfsC5, rfsC5)).2.2 (by decide) h
  rw [h2, if_pos (by decide)]

/-! ## C4: no remote staging archive, no remote sync-state directory -/

/-- Wellformedness of a profile as `read_profile` produces it: the
data folder, a sibling of the profile file named after its stem, is
disjoint from the fixed sync-state and backup paths under the home
directory. -/
def Profile.wf (p : Profile) : Bool :=
  pathDisj u_folder p.data_folder && pathDisj u_backup_folder p.data_folder

theorem wf_u_data {p : Profile} (h : Profile.wf p = true) :
    pathDisj u_folder p.data_folder = true := (Bool.and_eq_true_iff.mp h).1

theorem wf_ub_data {p : Profile} (h : Profile.wf p = true) :
    pathDisj u_backup_folder p.data_folder = true :=
  (Bool.and_eq_true_iff.mp h).2

theorem not_leads_ext {a q : FPath} (h : FPath.leads a q = false)
    (x : FPath) : FPath.leads (a ++ x) q = false := by
  cases hv : FPath.leads (a ++ x) q with
  | false => rfl
  | true =>
    have h2 := FPath.leads_trans (FPath.leads_append a x) hv
    rw [h2] at h
    exact Bool.noConfusion h

theorem not_leads_of_length_lt {a b : FPath} (h : b.length < a.length) :
    FPath.leads a b = false := by
  cases hv : FPath.leads a b with
  | false => rfl
  | true =>
    have h2 := FPath.leads_length hv
    omega

theorem leads_single_cons (a b : String) (t : FPath) :
    FPath.leads [a] (b :: t) = (a = b : Bool) := by
  rw [FPath.leads_cons_cons]
  simp

theorem leads_ext_ext (d : FPath) (a b : String) (t : FPath)
    (hne : (a = b : Bool) = false) :
    FPath.leads (d ++ [a]) (d ++ b :: t) = false := by
  rw [FPath.leads_append_same, leads_single_cons]
  exact hne

theorem ne_of_not_leads {a q : FPath} (h : FPath.leads a q = false) :
    ¬(a = q) := by
  intro he
  subst he
  rw [FPath.leads_refl] at h
  exact Bool.noConfusion h

theorem lookup_moveTree_untouched {fs : FS} {src dst q : FPath}
    (h1 : FPath.leads dst q = false) (h2 : FPath.leads src q = false) :
    FS.lookup (fs.moveTree src dst) q = fs.lookup q := by
  unfold FS.moveTree
  rw [FS.lookup_append, FS.lookup_subtreeTo, FS.lookup_rmtree]
  simp [h1, h2]

theorem lookup_copyFrom_untouched {dfs sfs : FS} {srcP dstP q : FPath}
    (h1 : FPath.leads dstP q = false) :
    FS.lookup (FS.copyFrom dfs sfs srcP dstP) q = dfs.lookup q := by
  unfold FS.copyFrom
  rw [FS.lookup_append, FS.lookup_subtreeTo]
  simp [h1]

theorem lookup_mkdirParents_untouched {fs : FS} {p q : FPath}
    (h : FPath.leads q p = false) :
    FS.lookup (mkdirParents fs p) q = fs.lookup q := by
  rw [FS.lookup_mkdirParents]
  have hq : q ∉ prefixesOf p := by
    intro hm
    have h2 := FS.leads_of_mem_prefixesOf hm
    rw [h2] at h
    exact Bool.noConfusion h
  simp [hq]

theorem lookup_rmtree_untouched {fs : FS} {p q : FPath}
    (h : FPath.leads p q = false) :
    FS.lookup (fs.rmtree p) q = fs.lookup q := by
  rw [FS.lookup_rmtree]
  simp [h]

theorem mkdirP_ok_eq {fs : FS} {p : FPath} {fs' : FS}
    (h : mkdirP fs p = Except.ok fs') :
    fs' = (p, Entry.dir) :: fs := by
  unfold mkdirP at h
  by_cases h1 : fs.pathExists p = true
  · rw [if_pos h1] at h
    exact Except.noConfusion h
  · rw [if_neg h1] at h
    by_cases h2 : (!fs.isDir p.dropLast) = true
    · rw [if_pos h2] at h
      exact Except.noConfusion h
    · rw [if_neg h2] at h
      injection h with h3
      exact h3.symm

theorem copytree_ok_eq {fs : FS} {src dst : FPath} {fs' : FS}
    (h : copytree fs src dst = Except.ok fs') :
    fs' = FS.copyFrom fs fs src dst := by
  unfold copytree at h
  by_cases h1 : (!fs.isDir src) = true
  · rw [if_pos h1] at h
    exact Except.noConfusion h
  · rw [if_neg h1] at h
    by_cases h2 : fs.pathExists dst = true
    · rw [if_pos h2] at h
      exact Except.noConfusion h
    · rw [if_neg h2] at h
      injection h with h3
      exact h3.symm

theorem shutilMove_ok_cases {fs : FS} {src dst : FPath} {fs' : FS}
    (h : shutilMove fs src dst = Except.ok fs') :
    fs' = fs.moveTree src (dst ++ [src.getLastD ""]) ∨
    fs' = fs.moveTree src dst := by
  unfold shutilMove at h
  by_cases h1 : (!fs.pathExists src) = true
  · rw [if_pos h1] at h
    exact Except.noConfusion h
  · rw [if_neg h1] at h
    by_cases h2 : fs.isDir dst = true
    · rw [if_pos h2] at h
      dsimp only at h
      by_cases h3 : fs.pathExists (dst ++ [src.getLastD ""]) = true
      · rw [if_pos h3] at h
        exact Except.noConfusion h
      · rw [if_neg h3] at h
        injection h with h4
        exact Or.inl h4.symm
    · rw [if_neg h2] at h
      by_cases h4 : (!fs.isDir dst.dropLast) = true
      · rw [if_pos h4] at h
        exact Except.noConfusion h
      · rw [if_neg h4] at h
        injection h with h5
        exact Or.inr h5.symm

theorem seqS_none (s : State) (f : State → State × Option Err) :
    seqS (s, none) f = f s := rfl

theorem seqS_some (s : State) (e : Err) (f : State → State × Option Err) :
    seqS (s, some e) f = (s, some e) := rfl

/-- A successful local preflight preserves every local path disjoint
from both the sync-state directory and the backup slot, and does not
touch the remote filesystem. -/
theorem startLocalPreflight_preserves (lfs rfs lfs1 rfs1 : FS) (q : FPath)
    (hq1 : FPath.leads u_folder q = false)
    (hq2 : FPath.leads u_backup_folder q = false)
    (h : startLocalPreflight (lfs, rfs) = ((lfs1, rfs1), none)) :
    lfs1.lookup q = lfs.lookup q ∧ rfs1 = rfs := by
  unfold startLocalPreflight at h
  dsimp only at h
  by_cases h1 : lfs.pathExists u_folder = true
  · rw [if_pos h1] at h
    by_cases h2 : lfs.pathExists u_backup_folder = true
    · rw [if_pos h2] at h
      exact absurd h (by simp)
    · rw [if_neg h2] at h
      cases hmv : shutilMove lfs u_folder u_backup_folder with
      | error e =>
        rw [hmv] at h
        dsimp only at h
        exact absurd h (by simp)
      | ok v =>
        rw [hmv] at h
        dsimp only at h
        have hl : v = lfs1 := congrArg (fun x => x.1.1) h
        have hr : rfs = rfs1 := congrArg (fun x => x.1.2) h
        subst hl
        rcases shutilMove_ok_cases hmv with rfl | rfl
        · exact ⟨lookup_moveTree_untouched (not_leads_ext hq2 _) hq1,
            hr.symm⟩
        · exact ⟨lookup_moveTree_untouched hq2 hq1, hr.symm⟩
  · rw [if_neg h1] at h
    have hl : lfs = lfs1 := congrArg (fun x => x.1.1) h
    have hr : rfs = rfs1 := congrArg (fun x => x.1.2) h
    rw [← hl, ← hr]
    exact ⟨rfl, rfl⟩

/-- A successful local staging step preserves the entry at the remote
staging-archive path and does not touch the remote filesystem. -/
theorem startLocalStaging_preserves_remote_arc (p : Profile)
    (today : String) (lfs rfs lfs3 rfs3 : FS)
    (hwf : Profile.wf p = true)
    (h : startLocalStaging p today (lfs, rfs) = ((lfs3, rfs3), none)) :
    lfs3.lookup (p.data_folder ++ [REMOTE_ARC_NAME]) =
      lfs.lookup (p.data_folder ++ [REMOTE_ARC_NAME]) ∧ rfs3 = rfs := by
  have hA : FPath.leads u_folder (p.data_folder ++ [REMOTE_ARC_NAME]) = false :=
    disj_no_common (wf_u_data hwf) (FPath.leads_append _ _)
  have hBA : FPath.leads (p.data_folder ++ [REMOTE_ARC_NAME])
      (p.data_folder ++ ["archives_backup", today]) = false :=
    leads_ext_ext p.data_folder REMOTE_ARC_NAME "archives_backup" [today]
      (by decide)
  have hAL : FPath.leads (p.data_folder ++ [LOCAL_ARC_NAME])
      (p.data_folder ++ [REMOTE_ARC_NAME]) = false :=
    leads_ext_ext p.data_folder LOCAL_ARC_NAME REMOTE_ARC_NAME []
      (by decide)
  have hslot : FPath.leads
      (p.data_folder ++ ["archives_backup", today] ++ [LOCAL_ARC_NAME])
      (p.data_folder ++ [REMOTE_ARC_NAME]) = false :=
    not_leads_of_length_lt (by
      simp only [List.length_append, List.length_cons, List.length_nil]
      omega)
  have hslotx : ∀ x : String, FPath.leads
      (p.data_folder ++ ["archives_backup", today] ++ [LOCAL_ARC_NAME] ++ [x])
      (p.data_folder ++ [REMOTE_ARC_NAME]) = false := fun x =>
    not_leads_of_length_lt (by
      simp only [List.length_append, List.length_cons, List.length_nil]
      omega)
  unfold startLocalStaging at h
  dsimp only at h
  by_cases harc : lfs.pathExists (p.data_folder ++ [LOCAL_ARC_NAME]) = true
  · rw [if_neg (by simp [harc])] at h
    cases hct : copytree lfs (p.data_folder ++ [LOCAL_ARC_NAME]) u_folder with
    | error e =>
      rw [hct] at h
      dsimp only at h
      exact absurd h (by simp)
    | ok lfs1 =>
      rw [hct] at h
      dsimp only at h
      by_cases hsl : (mkdirParents lfs1
          (p.data_folder ++ ["archives_backup", today])).pathExists
          (p.data_folder ++ ["archives_backup", today] ++ [LOCAL_ARC_NAME])
          = true
      · rw [if_pos hsl] at h
        cases hmv : shutilMove
            ((mkdirParents lfs1 (p.data_folder ++ ["archives_backup", today])).rmtree
              (p.data_folder ++ ["archives_backup", today] ++ [LOCAL_ARC_NAME]))
            (p.data_folder ++ [LOCAL_ARC_NAME])
            (p.data_folder ++ ["archives_backup", today] ++ [LOCAL_ARC_NAME]) with
        | error e =>
          rw [hmv] at h
          dsimp only at h
          exact absurd h (by simp)
        | ok lfs4 =>
          rw [hmv] at h
          dsimp only at h
          have hl : lfs4 = lfs3 := congrArg (fun x => x.1.1) h
          have hr : rfs = rfs3 := congrArg (fun x => x.1.2) h
          subst hl
          refine ⟨?_, hr.symm⟩
          rcases shutilMove_ok_cases hmv with rfl | rfl
          · rw [lookup_moveTree_untouched (hslotx _) hAL,
              lookup_rmtree_untouched hslot,
              lookup_mkdirParents_untouched hBA,
              copytree_ok_eq hct, lookup_copyFrom_untouched hA]
          · rw [lookup_moveTree_untouched hslot hAL,
              lookup_rmtree_untouched hslot,
              lookup_mkdirParents_untouched hBA,
              copytree_ok_eq hct, lookup_copyFrom_untouched hA]
      · rw [if_neg hsl] at h
        cases hmv : shutilMove
            (mkdirParents lfs1 (p.data_folder ++ ["archives_backup", today]))
            (p.data_folder ++ [LOCAL_ARC_NAME])
            (p.data_folder ++ ["archives_backup", today] ++ [LOCAL_ARC_NAME]) with
        | error e =>
          rw [hmv] at h
          dsimp only at h
          exact absurd h (by simp)
        | ok lfs4 =>
          rw [hmv] at h
          dsimp only at h
          have hl : lfs4 = lfs3 := congrArg (fun x => x.1.1) h
          have hr : rfs = rfs3 := congrArg (fun x => x.1.2) h
          subst hl
          refine ⟨?_, hr.symm⟩
          rcases shutilMove_ok_cases hmv with rfl | rfl
          · rw [lookup_moveTree_untouched (hslotx _) hAL,
              lookup_mkdirParents_untouched hBA,
              copytree_ok_eq hct, lookup_copyFrom_untouched hA]
          · rw [lookup_moveTree_untouched hslot hAL,
              lookup_mkdirParents_untouched hBA,
              copytree_ok_eq hct, lookup_copyFrom_untouched hA]
  · rw [if_pos (by simp [bool_eq_false_of_ne_true harc])] at h
    cases hmk : mkdirP lfs u_folder with
    | error e =>
      rw [hmk] at h
      dsimp only at h
      exact absurd h (by simp)
    | ok v =>
      rw [hmk] at h
      dsimp only at h
      have hl : v = lfs3 := congrArg (fun x => x.1.1) h
      have hr : rfs = rfs3 := congrArg (fun x => x.1.2) h
      subst hl
      refine ⟨?_, hr.symm⟩
      rw [mkdirP_ok_eq hmk, FS.lookup_cons,
        if_neg (ne_of_not_leads hA)]

/-- Remote filesystem for the C4 instances: just the remote home, no
sync-state directory. -/
def rfsC4 : FS := [(remoteHomeP, Entry.dir)]

/-- C4 counterexample: on a clean pair of hosts with no staging
archives at all, `start` on a remote profile succeeds but the remote
sync-state directory is *not* created (line 462's comment states this
is deliberate), contradicting the claim that it is left present. -/
theorem C4_counterexample :
    (start pRem "20260101" (lfsBase, rfsC4)).2 = none ∧
    (start pRem "20260101" (lfsBase, rfsC4)).1.2.pathExists remote_unison
      = false := by
  exact ⟨by decide, by decide⟩

/-- C4 amended: for every wellformed profile with a remote endpoint
and no remote staging archive under the data folder, a successful
`start()` leaves the remote sync-state directory *absent* (a
pre-existing one was renamed to the backup slot by the preflight, and
none is created afterwards). -/
theorem C4_amended_start_leaves_remote_unison_absent (p : Profile)
    (today : String) (lfs rfs lfs' rfs' : FS)
    (hcr : p.contain_remote = true) (hwf : Profile.wf p = true)
    (hra : lfs.lookup (p.data_folder ++ [REMOTE_ARC_NAME]) = none)
    (hrun : start p today (lfs, rfs) = ((lfs', rfs'), none)) :
    rfs'.pathExists remote_unison = false := by
  unfold start at hrun
  cases hpre : startLocalPreflight (lfs, rfs) with
  | mk s1 e1 =>
    rw [hpre] at hrun
    cases e1 with
    | some e =>
      rw [seqS_some] at hrun
      exact absurd hrun (by simp)
    | none =>
      rw [seqS_none] at hrun
      obtain ⟨lfs1, rfs1⟩ := s1
      obtain ⟨hra1, hrfs1⟩ := startLocalPreflight_preserves lfs rfs lfs1 rfs1
        (p.data_folder ++ [REMOTE_ARC_NAME])
        (disj_no_common (wf_u_data hwf) (FPath.leads_append _ _))
        (disj_no_common (wf_ub_data hwf) (FPath.leads_append _ _)) hpre
      rw [if_pos hcr] at hrun
      cases hrt : p.remote_type with
      | none =>
        rw [hrt] at hrun
        rw [seqS_some] at hrun
        exact absurd hrun (by simp)
      | some rt =>
        rw [hrt] at hrun
        dsimp only at hrun
        have hmain : ∀ rfs2 : FS,
            rfs2.pathExists remote_unison = false →
            (seqS (startLocalStaging p today (lfs1, rfs2)) fun s3 =>
              seqS (if p.contain_remote then startRemoteStaging p rt today s3
                    else (s3, none)) fun s4 =>
              startCopyCfg p s4) = ((lfs', rfs'), none) →
            rfs'.pathExists remote_unison = false := by
          intro rfs2 hru h
          cases hst : startLocalStaging p today (lfs1, rfs2) with
          | mk s3 e3 =>
            rw [hst] at h
            cases e3 with
            | some e =>
              rw [seqS_some] at h
              exact absurd h (by simp)
            | none =>
              rw [seqS_none] at h
              obtain ⟨lfs3, rfs3⟩ := s3
              obtain ⟨hra3, hrfs3⟩ := startLocalStaging_preserves_remote_arc
                p today lfs1 rfs2 lfs3 rfs3 hwf hst
              rw [if_pos hcr] at h
              have hpe : lfs3.pathExists (p.data_folder ++ [REMOTE_ARC_NAME])
                  = false := by
                apply FS.pathExists_eq_false.mpr
                rw [hra3, hra1]
                exact hra
              have hremst : startRemoteStaging p rt today (lfs3, rfs3) =
                  ((lfs3, rfs3), none) := by
                unfold startRemoteStaging
                dsimp only
                rw [if_pos (by simp [hpe])]
              rw [hremst, seqS_none] at h
              unfold startCopyCfg at h
              dsimp only at h
              cases hcf : copyFileP lfs3 p.cfg_file
                  (u_folder ++ [p.cfgName]) with
              | error e =>
                rw [hcf] at h
                dsimp only at h
                exact absurd h (by simp)
              | ok v =>
                rw [hcf] at h
                dsimp only at h
                have hr : rfs3 = rfs' := congrArg (fun x => x.1.2) h
                rw [← hr, hrfs3]
                exact hru
        unfold startRemotePreflight at hrun
        dsimp only at hrun
        by_cases hex : unison_exists rfs1 = true
        · rw [if_pos hex] at hrun
          by_cases hbk : unison_backup_exists rfs1 = true
          · rw [if_pos hbk, seqS_some] at hrun
            exact absurd hrun (by simp)
          · rw [if_neg hbk] at hrun
            cases hmv : move_remote_unison_to_backup rt rfs1 with
            | error e =>
              rw [hmv] at hrun
              dsimp only at hrun
              rw [seqS_some] at hrun
              exact absurd hrun (by simp)
            | ok rfs2 =>
              rw [hmv] at hrun
              dsimp only at hrun
              rw [seqS_none] at hrun
              exact hmain rfs2 (remoteMove_ok_old_absent hmv) hrun
        · rw [if_neg hex] at hrun
          rw [seqS_none] at hrun
          exact hmain rfs1 (bool_eq_false_of_ne_true hex) hrun

/-- Witness for the amended C4 at the concrete clean state. -/
theorem C4_amended_witness :
    (start pRem "20260101" (lfsBase, rfsC4)).1.2.pathExists remote_unison
      = false := by
  have h : start pRem "20260101" (lfsBase, rfsC4) =
      (((start pRem "20260101" (lfsBase, rfsC4)).1.1,
        (start pRem "20260101" (lfsBase, rfsC4)).1.2), none) := by decide
  exact C4_amended_start_leaves_remote_unison_absent pRem "20260101"
    lfsBase rfsC4 _ _ (by decide) (by decide) (by decide) h

/-! ## C7: the root-address grammar -/

/-- The Windows drive form of a parsed path component: `/X:...` with
`X` a letter (the property the grammar's `ssh://<host>/<letter>:<path>`
case tests, in the evaluation order of line 343). -/
def isWinPathForm (s : String) : Bool :=
  match s.toList with
  | c0 :: c1 :: c2 :: _ => c0 = '/' && c1.isAlpha && c2 = ':'
  | _ => false

/-- C7: `parse_root_path` realises the documented grammar — an address
without a scheme is a local endpoint with the address as its path; an
ssh address whose path component starts with `//` is a Unix remote
endpoint; an ssh address whose path component has the `/X:` drive form
is a Windows remote endpoint (in both remote cases the leading slash
is stripped and the netloc is the host); an address with any other
scheme fails with the parse error. -/
theorem C7_parse_root_path_grammar (addr : String) (sch nl up : String)
    (h : urlparse addr = (sch, nl, up)) :
    (sch = "" →
      parse_root_path addr = Except.ok { path := addr, is_local := true }) ∧
    (sch = "ssh" → startsWithSlashSlash up = true →
      parse_root_path addr =
        Except.ok { path := String.mk (up.toList.drop 1), is_local := false,
                    remote_name := some nl,
                    remote_type := some RType.Unix }) ∧
    (sch = "ssh" → isWinPathForm up = true →
      parse_root_path addr =
        Except.ok { path := String.mk (up.toList.drop 1), is_local := false,
                    remote_name := some nl,
                    remote_type := some RType.Windows }) ∧
    (¬sch = "" → ¬sch = "ssh" →
      parse_root_path addr = Except.error ParseErr.valueError) := by
  refine ⟨?_, ?_, ?_, ?_⟩
  · intro h0
    unfold parse_root_path
    rw [h]
    dsimp only
    rw [if_pos h0]
  · intro h0 h1
    unfold parse_root_path
    rw [h]
    dsimp only
    rw [if_neg (by rw [h0]; decide), if_pos h0, if_pos h1]
  · intro h0 hwin
    unfold parse_root_path
    rw [h]
    dsimp only
    rw [if_neg (by rw [h0]; decide), if_pos h0]
    unfold isWinPathForm at hwin
    unfold startsWithSlashSlash
    rcases hl : up.toList with _ | ⟨c0, _ | ⟨c1, _ | ⟨c2, rest⟩⟩⟩ <;>
      rw [hl] at hwin <;> dsimp only at hwin ⊢
    · exact Bool.noConfusion hwin
    · exact Bool.noConfusion hwin
    · exact Bool.noConfusion hwin
    · have ha := Bool.and_eq_true_iff.mp hwin
      have hb := Bool.and_eq_true_iff.mp ha.1
      have hc0 : c0 = '/' := by
        have := hb.1
        simpa using this
      have hal : c1.isAlpha = true := hb.2
      have hc2 : c2 = ':' := by
        have := ha.2
        simpa using this
      have hc1 : ¬(c1 = '/') := by
        intro he
        rw [he] at hal
        exact absurd hal (by decide)
      subst hc0
      subst hc2
      rw [if_neg (by simp [hc1]), if_pos (by simp), if_pos hal,
        if_pos (by simp)]
  · intro h0 h1
    unfold parse_root_path
    rw [h]
    dsimp only
    rw [if_neg h0, if_neg h1]

/-- Witness for C7: the Unix case at the source's own asserted
example. -/
theorem C7_witness :
    parse_root_path "ssh://remote//home/xx/" =
      Except.ok { path := "/home/xx/", is_local := false,
                  remote_name := some "remote",
                  remote_type := some RType.Unix } := by
  have h := (C7_parse_root_path_grammar "ssh://remote//home/xx/" "ssh"
    "remote" "//home/xx/" (by decide)).2.1 rfl (by decide)
  exact h.trans (by decide)

/-! ## C8: same-day restart replaces the dated slot -/

theorem shutilMove_ok_eq_of_not_dir {fs : FS} {src dst : FPath} {fs' : FS}
    (hdst : fs.isDir dst = false) (h : shutilMove fs src dst = Except.ok fs') :
    fs' = fs.moveTree src dst := by
  unfold shutilMove at h
  by_cases h1 : (!fs.pathExists src) = true
  · rw [if_pos h1] at h
    exact Except.noConfusion h
  · rw [if_neg h1, if_neg (by simp [hdst])] at h
    by_cases h4 : (!fs.isDir dst.dropLast) = true
    · rw [if_pos h4] at h
      exact Except.noConfusion h
    · rw [if_neg h4] at h
      injection h with h5
      exact h5.symm

theorem copyFileP_ok_cases {fs : FS} {src dst : FPath} {v : FS}
    (h : copyFileP fs src dst = Except.ok v) :
    ∃ c, v = (dst, Entry.file c) :: fs := by
  unfold copyFileP at h
  cases hl : fs.lookup src with
  | none =>
    rw [hl] at h
    exact Except.noConfusion h
  | some e =>
    cases e with
    | dir =>
      rw [hl] at h
      exact Except.noConfusion h
    | file c =>
      rw [hl] at h
      dsimp only at h
      by_cases h2 : fs.isDir dst.dropLast = true
      · rw [if_pos h2] at h
        injection h with h3
        exact ⟨c, h3.symm⟩
      · rw [if_neg h2] at h
        exact Except.noConfusion h

/-- Two mutually non-leading paths head disjoint trees. -/
theorem not_leads_into_tree {a b : FPath} (h1 : FPath.leads a b = false)
    (h2 : FPath.leads b a = false) (r : FPath) :
    FPath.leads a (b ++ r) = false := by
  cases hv : FPath.leads a (b ++ r) with
  | false => rfl
  | true =>
    rcases FPath.leads_comparable hv (FPath.leads_append b r) with hc | hc
    · rw [hc] at h1
      exact Bool.noConfusion h1
    · rw [hc] at h2
      exact Bool.noConfusion h2

/-- The local staging step with a staging archive present and the
day's dated slot already present: the slot's tree afterwards is
exactly the staging archive's tree beforehand, relocated — the old
slot content is deleted, not merged. -/
theorem startLocalStaging_slot_content (p : Profile) (today : String)
    (lfs rfs lfs3 rfs3 : FS) (hwf : Profile.wf p = true)
    (harc : lfs.pathExists (p.data_folder ++ [LOCAL_ARC_NAME]) = true)
    (hslot : lfs.pathExists
      (p.data_folder ++ ["archives_backup", today] ++ [LOCAL_ARC_NAME]) = true)
    (h : startLocalStaging p today (lfs, rfs) = ((lfs3, rfs3), none)) :
    (∀ q, FPath.leads
        (p.data_folder ++ ["archives_backup", today] ++ [LOCAL_ARC_NAME]) q
        = true →
      lfs3.lookup q = lfs.lookup (p.data_folder ++ [LOCAL_ARC_NAME] ++
        q.drop (p.data_folder ++ ["archives_backup", today] ++
          [LOCAL_ARC_NAME]).length)) ∧ rfs3 = rfs := by
  have hAB : FPath.leads (p.data_folder ++ [LOCAL_ARC_NAME])
      (p.data_folder ++ ["archives_backup", today]) = false :=
    leads_ext_ext p.data_folder LOCAL_ARC_NAME "archives_backup" [today]
      (by decide)
  have hBA : FPath.leads (p.data_folder ++ ["archives_backup", today])
      (p.data_folder ++ [LOCAL_ARC_NAME]) = false :=
    not_leads_of_length_lt (by
      simp only [List.length_append, List.length_cons, List.length_nil]
      omega)
  have hAS : FPath.leads (p.data_folder ++ [LOCAL_ARC_NAME])
      (p.data_folder ++ ["archives_backup", today] ++ [LOCAL_ARC_NAME])
      = false := not_leads_into_tree hAB hBA [LOCAL_ARC_NAME]
  have hSA : FPath.leads
      (p.data_folder ++ ["archives_backup", today] ++ [LOCAL_ARC_NAME])
      (p.data_folder ++ [LOCAL_ARC_NAME]) = false :=
    not_leads_of_length_lt (by
      simp only [List.length_append, List.length_cons, List.length_nil]
      omega)
  have hSb : FPath.leads
      (p.data_folder ++ ["archives_backup", today] ++ [LOCAL_ARC_NAME])
      (p.data_folder ++ ["archives_backup", today]) = false :=
    not_leads_of_length_lt (by
      simp only [List.length_append, List.length_cons, List.length_nil]
      omega)
  have hUAr : ∀ r : FPath, FPath.leads u_folder
      (p.data_folder ++ [LOCAL_ARC_NAME] ++ r) = false := fun r =>
    disj_no_common (wf_u_data hwf) (by
      rw [List.append_assoc]
      exact FPath.leads_append _ _)
  have hUS : FPath.leads u_folder
      (p.data_folder ++ ["archives_backup", today] ++ [LOCAL_ARC_NAME])
      = false :=
    disj_no_common (wf_u_data hwf) (by
      rw [List.append_assoc]
      exact FPath.leads_append _ _)
  have hSAr : ∀ r : FPath, FPath.leads
      (p.data_folder ++ ["archives_backup", today] ++ [LOCAL_ARC_NAME])
      (p.data_folder ++ [LOCAL_ARC_NAME] ++ r) = false := fun r =>
    not_leads_into_tree hSA hAS r
  have hABr : ∀ r : FPath, FPath.leads
      (p.data_folder ++ [LOCAL_ARC_NAME] ++ r)
      (p.data_folder ++ ["archives_backup", today]) = false := fun r =>
    not_leads_ext hAB r
  unfold startLocalStaging at h
  dsimp only at h
  rw [if_neg (by simp [harc])] at h
  cases hct : copytree lfs (p.data_folder ++ [LOCAL_ARC_NAME]) u_folder with
  | error e =>
    rw [hct] at h
    dsimp only at h
    exact absurd h (by simp)
  | ok lfs1 =>
    rw [hct] at h
    dsimp only at h
    have hlfs1 : lfs1 = FS.copyFrom lfs lfs (p.data_folder ++ [LOCAL_ARC_NAME])
        u_folder := copytree_ok_eq hct
    have hsl2 : (mkdirParents lfs1
        (p.data_folder ++ ["archives_backup", today])).pathExists
        (p.data_folder ++ ["archives_backup", today] ++ [LOCAL_ARC_NAME])
        = true := by
      unfold FS.pathExists
      rw [lookup_mkdirParents_untouched hSb, hlfs1,
        lookup_copyFrom_untouched hUS]
      exact hslot
    rw [if_pos hsl2] at h
    cases hmv : shutilMove
        ((mkdirParents lfs1 (p.data_folder ++ ["archives_backup", today])).rmtree
          (p.data_folder ++ ["archives_backup", today] ++ [LOCAL_ARC_NAME]))
        (p.data_folder ++ [LOCAL_ARC_NAME])
        (p.data_folder ++ ["archives_backup", today] ++ [LOCAL_ARC_NAME]) with
    | error e =>
      rw [hmv] at h
      dsimp only at h
      exact absurd h (by simp)
    | ok lfs4 =>
      rw [hmv] at h
      dsimp only at h
      have hl : lfs4 = lfs3 := congrArg (fun x => x.1.1) h
      have hr : rfs = rfs3 := congrArg (fun x => x.1.2) h
      have hXnotdir : ((mkdirParents lfs1
          (p.data_folder ++ ["archives_backup", today])).rmtree
          (p.data_folder ++ ["archives_backup", today] ++
            [LOCAL_ARC_NAME])).isDir
          (p.data_folder ++ ["archives_backup", today] ++ [LOCAL_ARC_NAME])
          = false :=
        isDir_false_of_not_exists (pathExists_rmtree_self _ _)
      have hlfs4 := shutilMove_ok_eq_of_not_dir hXnotdir hmv
      refine ⟨?_, hr.symm⟩
      intro q hq
      obtain ⟨rq, rfl⟩ := FPath.leads_iff.mp hq
      rw [← hl, hlfs4]
      unfold FS.moveTree
      rw [FS.lookup_append, FS.lookup_subtreeTo, if_pos hq]
      have hfirst : ((mkdirParents lfs1
          (p.data_folder ++ ["archives_backup", today])).rmtree
          (p.data_folder ++ ["archives_backup", today] ++
            [LOCAL_ARC_NAME])).lookup
          (p.data_folder ++ [LOCAL_ARC_NAME] ++
            ((p.data_folder ++ ["archives_backup", today] ++
              [LOCAL_ARC_NAME]) ++ rq).drop
              (p.data_folder ++ ["archives_backup", today] ++
                [LOCAL_ARC_NAME]).length) =
          lfs.lookup (p.data_folder ++ [LOCAL_ARC_NAME] ++
            ((p.data_folder ++ ["archives_backup", today] ++
              [LOCAL_ARC_NAME]) ++ rq).drop
              (p.data_folder ++ ["archives_backup", today] ++
                [LOCAL_ARC_NAME]).length) := by
        rw [lookup_rmtree_untouched (hSAr _),
          lookup_mkdirParents_untouched (hABr _), hlfs1,
          lookup_copyFrom_untouched (hUAr _)]
      rw [hfirst]
      have hsecond : (FS.rmtree ((mkdirParents lfs1
          (p.data_folder ++ ["archives_backup", today])).rmtree
          (p.data_folder ++ ["archives_backup", today] ++ [LOCAL_ARC_NAME]))
          (p.data_folder ++ [LOCAL_ARC_NAME])).lookup
          ((p.data_folder ++ ["archives_backup", today] ++ [LOCAL_ARC_NAME])
            ++ rq) = none := by
        rw [FS.lookup_rmtree,
          if_neg (ne_true_of_eq_false (not_leads_into_tree hAS hSA rq)),
          FS.lookup_rmtree, if_pos (FPath.leads_append _ _)]
      cases hv : lfs.lookup (p.data_folder ++ [LOCAL_ARC_NAME] ++
          ((p.data_folder ++ ["archives_backup", today] ++
            [LOCAL_ARC_NAME]) ++ rq).drop
            (p.data_folder ++ ["archives_backup", today] ++
              [LOCAL_ARC_NAME]).length) with
      | none => exact hsecond
      | some e => rfl

/-- Two paths heading disjoint trees: nothing inside the tree at `b`
is inside the tree at `a`. -/
theorem not_leads_across {a b q : FPath} (h1 : FPath.leads a b = false)
    (h2 : FPath.leads b a = false) (hq : FPath.leads b q = true) :
    FPath.leads a q = false := by
  cases hv : FPath.leads a q with
  | false => rfl
  | true =>
    rcases FPath.leads_comparable hv hq with hc | hc
    · rw [hc] at h1
      exact Bool.noConfusion h1
    · rw [hc] at h2
      exact Bool.noConfusion h2

/-- A successful local staging step preserves every local path that is
outside the sync-state directory, the local staging-archive tree and
the local dated slot tree, and is not an ancestor of the dated backup
folder. -/
theorem startLocalStaging_untouched (p : Profile) (today : String)
    (lfs rfs lfs3 rfs3 : FS) (q : FPath)
    (hqU : FPath.leads u_folder q = false)
    (hqB : FPath.leads q (p.data_folder ++ ["archives_backup", today])
      = false)
    (hqS : FPath.leads
      (p.data_folder ++ ["archives_backup", today] ++ [LOCAL_ARC_NAME]) q
      = false)
    (hqA : FPath.leads (p.data_folder ++ [LOCAL_ARC_NAME]) q = false)
    (h : startLocalStaging p today (lfs, rfs) = ((lfs3, rfs3), none)) :
    lfs3.lookup q = lfs.lookup q := by
  unfold startLocalStaging at h
  dsimp only at h
  by_cases harc : lfs.pathExists (p.data_folder ++ [LOCAL_ARC_NAME]) = true
  · rw [if_neg (by simp [harc])] at h
    cases hct : copytree lfs (p.data_folder ++ [LOCAL_ARC_NAME]) u_folder with
    | error e =>
      rw [hct] at h
      dsimp only at h
      exact absurd h (by simp)
    | ok lfs1 =>
      rw [hct] at h
      dsimp only at h
      by_cases hsl : (mkdirParents lfs1
          (p.data_folder ++ ["archives_backup", today])).pathExists
          (p.data_folder ++ ["archives_backup", today] ++ [LOCAL_ARC_NAME])
          = true
      · rw [if_pos hsl] at h
        cases hmv : shutilMove
            ((mkdirParents lfs1
              (p.data_folder ++ ["archives_backup", today])).rmtree
              (p.data_folder ++ ["archives_backup", today] ++
                [LOCAL_ARC_NAME]))
            (p.data_folder ++ [LOCAL_ARC_NAME])
            (p.data_folder ++ ["archives_backup", today] ++
              [LOCAL_ARC_NAME]) with
        | error e =>
          rw [hmv] at h
          dsimp only at h
          exact absurd h (by simp)
        | ok v =>
          rw [hmv] at h
          dsimp only at h
          have hl : v = lfs3 := congrArg (fun x => x.1.1) h
          rw [← hl]
          rcases shutilMove_ok_cases hmv with rfl | rfl
          · rw [lookup_moveTree_untouched (not_leads_ext hqS _) hqA,
              lookup_rmtree_untouched hqS,
              lookup_mkdirParents_untouched hqB,
              copytree_ok_eq hct, lookup_copyFrom_untouched hqU]
          · rw [lookup_moveTree_untouched hqS hqA,
              lookup_rmtree_untouched hqS,
              lookup_mkdirParents_untouched hqB,
              copytree_ok_eq hct, lookup_copyFrom_untouched hqU]
      · rw [if_neg hsl] at h
        cases hmv : shutilMove
            (mkdirParents lfs1 (p.data_folder ++ ["archives_backup", today]))
            (p.data_folder ++ [LOCAL_ARC_NAME])
            (p.data_folder ++ ["archives_backup", today] ++
              [LOCAL_ARC_NAME]) with
        | error e =>
          rw [hmv] at h
          dsimp only at h
          exact absurd h (by simp)
        | ok v =>
          rw [hmv] at h
          dsimp only at h
          have hl : v = lfs3 := congrArg (fun x => x.1.1) h
          rw [← hl]
          rcases shutilMove_ok_cases hmv with rfl | rfl
          · rw [lookup_moveTree_untouched (not_leads_ext hqS _) hqA,
              lookup_mkdirParents_untouched hqB,
              copytree_ok_eq hct, lookup_copyFrom_untouched hqU]
          · rw [lookup_moveTree_untouched hqS hqA,
              lookup_mkdirParents_untouched hqB,
              copytree_ok_eq hct, lookup_copyFrom_untouched hqU]
  · rw [if_pos (by simp [bool_eq_false_of_ne_true harc])] at h
    cases hmk : mkdirP lfs u_folder with
    | error e =>
      rw [hmk] at h
      dsimp only at h
      exact absurd h (by simp)
    | ok v =>
      rw [hmk] at h
      dsimp only at h
      have hl : v = lfs3 := congrArg (fun x => x.1.1) h
      rw [← hl, mkdirP_ok_eq hmk, FS.lookup_cons,
        if_neg (ne_of_not_leads hqU)]

/-- A successful remote staging step preserves every local path that
is outside the remote staging-archive tree and the remote dated slot
tree, and is not an ancestor of the dated backup folder. -/
theorem startRemoteStaging_preserves_local (p : Profile) (rt : RType)
    (today : String) (lfs rfs lfs4 rfs4 : FS) (q : FPath)
    (hqB : FPath.leads q (p.data_folder ++ ["archives_backup", today])
      = false)
    (hqS : FPath.leads
      (p.data_folder ++ ["archives_backup", today] ++ [REMOTE_ARC_NAME]) q
      = false)
    (hqA : FPath.leads (p.data_folder ++ [REMOTE_ARC_NAME]) q = false)
    (h : startRemoteStaging p rt today (lfs, rfs) = ((lfs4, rfs4), none)) :
    lfs4.lookup q = lfs.lookup q := by
  unfold startRemoteStaging at h
  dsimp only at h
  by_cases harc : lfs.pathExists (p.data_folder ++ [REMOTE_ARC_NAME]) = true
  · rw [if_neg (by simp [harc])] at h
    cases hcp : copy_archive_folder_to_remote_unison rt lfs
        (p.data_folder ++ [REMOTE_ARC_NAME]) rfs with
    | error e =>
      rw [hcp] at h
      dsimp only at h
      exact absurd h (by simp)
    | ok rfs1 =>
      rw [hcp] at h
      dsimp only at h
      by_cases hsl : (mkdirParents lfs
          (p.data_folder ++ ["archives_backup", today])).pathExists
          (p.data_folder ++ ["archives_backup", today] ++ [REMOTE_ARC_NAME])
          = true
      · rw [if_pos hsl] at h
        cases hmv : shutilMove
            ((mkdirParents lfs
              (p.data_folder ++ ["archives_backup", today])).rmtree
              (p.data_folder ++ ["archives_backup", today] ++
                [REMOTE_ARC_NAME]))
            (p.data_folder ++ [REMOTE_ARC_NAME])
            (p.data_folder ++ ["archives_backup", today] ++
              [REMOTE_ARC_NAME]) with
        | error e =>
          rw [hmv] at h
          dsimp only at h
          exact absurd h (by simp)
        | ok v =>
          rw [hmv] at h
          dsimp only at h
          have hl : v = lfs4 := congrArg (fun x => x.1.1) h
          rw [← hl]
          rcases shutilMove_ok_cases hmv with rfl | rfl
          · rw [lookup_moveTree_untouched (not_leads_ext hqS _) hqA,
              lookup_rmtree_untouched hqS,
              lookup_mkdirParents_untouched hqB]
          · rw [lookup_moveTree_untouched hqS hqA,
              lookup_rmtree_untouched hqS,
              lookup_mkdirParents_untouched hqB]
      · rw [if_neg hsl] at h
        cases hmv : shutilMove
            (mkdirParents lfs (p.data_folder ++ ["archives_backup", today]))
            (p.data_folder ++ [REMOTE_ARC_NAME])
            (p.data_folder ++ ["archives_backup", today] ++
              [REMOTE_ARC_NAME]) with
        | error e =>
          rw [hmv] at h
          dsimp only at h
          exact absurd h (by simp)
        | ok v =>
          rw [hmv] at h
          dsimp only at h
          have hl : v = lfs4 := congrArg (fun x => x.1.1) h
          rw [← hl]
          rcases shutilMove_ok_cases hmv with rfl | rfl
          · rw [lookup_moveTree_untouched (not_leads_ext hqS _) hqA,
              lookup_mkdirParents_untouched hqB]
          · rw [lookup_moveTree_untouched hqS hqA,
              lookup_mkdirParents_untouched hqB]
  · rw [if_pos (by simp [bool_eq_false_of_ne_true harc])] at h
    have hl : lfs = lfs4 := congrArg (fun x => x.1.1) h
    rw [← hl]

/-- The remote staging step with a remote staging archive present and
the day's remote dated slot already present: the slot's local tree
afterwards is exactly the remote staging archive's tree beforehand,
relocated — the old slot content is deleted, not merged. -/
theorem startRemoteStaging_slot_content (p : Profile) (rt : RType)
    (today : String) (lfs rfs lfs4 rfs4 : FS)
    (harc : lfs.pathExists (p.data_folder ++ [REMOTE_ARC_NAME]) = true)
    (hslot : lfs.pathExists
      (p.data_folder ++ ["archives_backup", today] ++ [REMOTE_ARC_NAME])
      = true)
    (h : startRemoteStaging p rt today (lfs, rfs) = ((lfs4, rfs4), none)) :
    ∀ q, FPath.leads
        (p.data_folder ++ ["archives_backup", today] ++ [REMOTE_ARC_NAME]) q
        = true →
      lfs4.lookup q = lfs.lookup (p.data_folder ++ [REMOTE_ARC_NAME] ++
        q.drop (p.data_folder ++ ["archives_backup", today] ++
          [REMOTE_ARC_NAME]).length) := by
  have hAB : FPath.leads (p.data_folder ++ [REMOTE_ARC_NAME])
      (p.data_folder ++ ["archives_backup", today]) = false :=
    leads_ext_ext p.data_folder REMOTE_ARC_NAME "archives_backup" [today]
      (by decide)
  have hBA : FPath.leads (p.data_folder ++ ["archives_backup", today])
      (p.data_folder ++ [REMOTE_ARC_NAME]) = false :=
    not_leads_of_length_lt (by
      simp only [List.length_append, List.length_cons, List.length_nil]
      omega)
  have hAS : FPath.leads (p.data_folder ++ [REMOTE_ARC_NAME])
      (p.data_folder ++ ["archives_backup", today] ++ [REMOTE_ARC_NAME])
      = false := not_leads_into_tree hAB hBA [REMOTE_ARC_NAME]
  have hSA : FPath.leads
      (p.data_folder ++ ["archives_backup", today] ++ [REMOTE_ARC_NAME])
      (p.data_folder ++ [REMOTE_ARC_NAME]) = false :=
    not_leads_of_length_lt (by
      simp only [List.length_append, List.length_cons, List.length_nil]
      omega)
  have hSb : FPath.leads
      (p.data_folder ++ ["archives_backup", today] ++ [REMOTE_ARC_NAME])
      (p.data_folder ++ ["archives_backup", today]) = false :=
    not_leads_of_length_lt (by
      simp only [List.length_append, List.length_cons, List.length_nil]
      omega)
  have hSAr : ∀ r : FPath, FPath.leads
      (p.data_folder ++ ["archives_backup", today] ++ [REMOTE_ARC_NAME])
      (p.data_folder ++ [REMOTE_ARC_NAME] ++ r) = false := fun r =>
    not_leads_into_tree hSA hAS r
  have hABr : ∀ r : FPath, FPath.leads
      (p.data_folder ++ [REMOTE_ARC_NAME] ++ r)
      (p.data_folder ++ ["archives_backup", today]) = false := fun r =>
    not_leads_ext hAB r
  unfold startRemoteStaging at h
  dsimp only at h
  rw [if_neg (by simp [harc])] at h
  cases hcp : copy_archive_folder_to_remote_unison rt lfs
      (p.data_folder ++ [REMOTE_ARC_NAME]) rfs with
  | error e =>
    rw [hcp] at h
    dsimp only at h
    exact absurd h (by simp)
  | ok rfs1 =>
    rw [hcp] at h
    dsimp only at h
    have hsl2 : (mkdirParents lfs
        (p.data_folder ++ ["archives_backup", today])).pathExists
        (p.data_folder ++ ["archives_backup", today] ++ [REMOTE_ARC_NAME])
        = true := by
      unfold FS.pathExists
      rw [lookup_mkdirParents_untouched hSb]
      exact hslot
    rw [if_pos hsl2] at h
    cases hmv : shutilMove
        ((mkdirParents lfs
          (p.data_folder ++ ["archives_backup", today])).rmtree
          (p.data_folder ++ ["archives_backup", today] ++ [REMOTE_ARC_NAME]))
        (p.data_folder ++ [REMOTE_ARC_NAME])
        (p.data_folder ++ ["archives_backup", today] ++ [REMOTE_ARC_NAME])
        with
    | error e =>
      rw [hmv] at h
      dsimp only at h
      exact absurd h (by simp)
    | ok v =>
      rw [hmv] at h
      dsimp only at h
      have hl : v = lfs4 := congrArg (fun x => x.1.1) h
      have hXnotdir : ((mkdirParents lfs
          (p.data_folder ++ ["archives_backup", today])).rmtree
          (p.data_folder ++ ["archives_backup", today] ++
            [REMOTE_ARC_NAME])).isDir
          (p.data_folder ++ ["archives_backup", today] ++ [REMOTE_ARC_NAME])
          = false :=
        isDir_false_of_not_exists (pathExists_rmtree_self _ _)
      have hv4 := shutilMove_ok_eq_of_not_dir hXnotdir hmv
      intro q hq
      obtain ⟨rq, rfl⟩ := FPath.leads_iff.mp hq
      rw [← hl, hv4]
      unfold FS.moveTree
      rw [FS.lookup_append, FS.lookup_subtreeTo, if_pos hq]
      have hfirst : ((mkdirParents lfs
          (p.data_folder ++ ["archives_backup", today])).rmtree
          (p.data_folder ++ ["archives_backup", today] ++
            [REMOTE_ARC_NAME])).lookup
          (p.data_folder ++ [REMOTE_ARC_NAME] ++
            ((p.data_folder ++ ["archives_backup", today] ++
              [REMOTE_ARC_NAME]) ++ rq).drop
              (p.data_folder ++ ["archives_backup", today] ++
                [REMOTE_ARC_NAME]).length) =
          lfs.lookup (p.data_folder ++ [REMOTE_ARC_NAME] ++
            ((p.data_folder ++ ["archives_backup", today] ++
              [REMOTE_ARC_NAME]) ++ rq).drop
              (p.data_folder ++ ["archives_backup", today] ++
                [REMOTE_ARC_NAME]).length) := by
        rw [lookup_rmtree_untouched (hSAr _),
          lookup_mkdirParents_untouched (hABr _)]
      rw [hfirst]
      have hsecond : (FS.rmtree ((mkdirParents lfs
          (p.data_folder ++ ["archives_backup", today])).rmtree
          (p.data_folder ++ ["archives_backup", today] ++ [REMOTE_ARC_NAME]))
          (p.data_folder ++ [REMOTE_ARC_NAME])).lookup
          ((p.data_folder ++ ["archives_backup", today] ++ [REMOTE_ARC_NAME])
            ++ rq) = none := by
        rw [FS.lookup_rmtree,
          if_neg (ne_true_of_eq_false (not_leads_into_tree hAS hSA rq)),
          FS.lookup_rmtree, if_pos (FPath.leads_append _ _)]
      cases hv : lfs.lookup (p.data_folder ++ [REMOTE_ARC_NAME] ++
          ((p.data_folder ++ ["archives_backup", today] ++
            [REMOTE_ARC_NAME]) ++ rq).drop
          (p.data_folder ++ ["archives_backup", today] ++
          [REMOTE_ARC_NAME]).length) with
      | none => exact hsecond
      | some e => rfl

/-- A successful config-copy step only prepends a file inside the
sync-state directory; every path outside it is preserved. -/
theorem startCopyCfg_preserves (p : Profile) (lfsI rfsI lfs2 rfs2 : FS)
    (q : FPath) (hq : FPath.leads u_folder q = false)
    (h : startCopyCfg p (lfsI, rfsI) = ((lfs2, rfs2), none)) :
    lfs2.lookup q = lfsI.lookup q := by
  unfold startCopyCfg at h
  dsimp only at h
  cases hcf : copyFileP lfsI p.cfg_file (u_folder ++ [p.cfgName]) with
  | error e =>
    rw [hcf] at h
    dsimp only at h
    exact absurd h (by simp)
  | ok v =>
    rw [hcf] at h
    dsimp only at h
    obtain ⟨c, hv⟩ := copyFileP_ok_cases hcf
    have hl : v = lfs2 := congrArg (fun x => x.1.1) h
    rw [← hl, hv, FS.lookup_cons,
      if_neg (ne_of_not_leads (not_leads_ext hq _))]

/-- C8: running `start()` again on the same calendar day with a
staging archive present and that day's dated slot already present
replaces the slot, for local and remote profiles and for both archive
kinds: after a successful run the tree under
`dataFolder/archives_backup/<today>/archives_local` is exactly the
local staging archive's tree from before the call, and (for a remote
profile) the tree under `.../archives_remote` is exactly the remote
staging archive's tree from before the call — the previous slot
content is deleted, never merged. -/
theorem C8_second_start_same_day_replaces_slot (p : Profile)
    (today : String) (lfs rfs lfs' rfs' : FS)
    (hwf : Profile.wf p = true)
    (hrun : start p today (lfs, rfs) = ((lfs', rfs'), none)) :
    (lfs.pathExists (p.data_folder ++ [LOCAL_ARC_NAME]) = true →
     lfs.pathExists (p.data_folder ++ ["archives_backup", today] ++
       [LOCAL_ARC_NAME]) = true →
     ∀ q, FPath.leads (p.data_folder ++ ["archives_backup", today] ++
         [LOCAL_ARC_NAME]) q = true →
       lfs'.lookup q = lfs.lookup (p.data_folder ++ [LOCAL_ARC_NAME] ++
         q.drop (p.data_folder ++ ["archives_backup", today] ++
           [LOCAL_ARC_NAME]).length)) ∧
    (p.contain_remote = true →
     lfs.pathExists (p.data_folder ++ [REMOTE_ARC_NAME]) = true →
     lfs.pathExists (p.data_folder ++ ["archives_backup", today] ++
       [REMOTE_ARC_NAME]) = true →
     ∀ q, FPath.leads (p.data_folder ++ ["archives_backup", today] ++
         [REMOTE_ARC_NAME]) q = true →
       lfs'.lookup q = lfs.lookup (p.data_folder ++ [REMOTE_ARC_NAME] ++
         q.drop (p.data_folder ++ ["archives_backup", today] ++
           [REMOTE_ARC_NAME]).length)) := by
  have hld_alP : FPath.leads p.data_folder (p.data_folder ++ [LOCAL_ARC_NAME])
      = true := FPath.leads_append _ _
  have hld_arP : FPath.leads p.data_folder
      (p.data_folder ++ [REMOTE_ARC_NAME]) = true := FPath.leads_append _ _
  have hld_slotL : FPath.leads p.data_folder
      (p.data_folder ++ ["archives_backup", today] ++ [LOCAL_ARC_NAME])
      = true := by
    rw [List.append_assoc]
    exact FPath.leads_append _ _
  have hld_slotR : FPath.leads p.data_folder
      (p.data_folder ++ ["archives_backup", today] ++ [REMOTE_ARC_NAME])
      = true := by
    rw [List.append_assoc]
    exact FPath.leads_append _ _
  have hled_ext_L : ∀ r : FPath, FPath.leads p.data_folder
      (p.data_folder ++ [LOCAL_ARC_NAME] ++ r) = true := fun r => by
    rw [List.append_assoc]
    exact FPath.leads_append _ _
  have hled_ext_R : ∀ r : FPath, FPath.leads p.data_folder
      (p.data_folder ++ [REMOTE_ARC_NAME] ++ r) = true := fun r => by
    rw [List.append_assoc]
    exact FPath.leads_append _ _
  have hU : ∀ q, FPath.leads p.data_folder q = true →
      FPath.leads u_folder q = false := fun q hq =>
    disj_no_common (wf_u_data hwf) hq
  have hAB_R : FPath.leads (p.data_folder ++ [REMOTE_ARC_NAME])
      (p.data_folder ++ ["archives_backup", today]) = false :=
    leads_ext_ext p.data_folder REMOTE_ARC_NAME "archives_backup" [today]
      (by decide)
  have hSb_R : FPath.leads
      (p.data_folder ++ ["archives_backup", today] ++ [REMOTE_ARC_NAME])
      (p.data_folder ++ ["archives_backup", today]) = false :=
    not_leads_of_length_lt (by
      simp only [List.length_append, List.length_cons, List.length_nil]
      omega)
  have hSL_SR : FPath.leads
      (p.data_folder ++ ["archives_backup", today] ++ [LOCAL_ARC_NAME])
      (p.data_folder ++ ["archives_backup", today] ++ [REMOTE_ARC_NAME])
      = false :=
    leads_ext_ext (p.data_folder ++ ["archives_backup", today])
      LOCAL_ARC_NAME REMOTE_ARC_NAME [] (by decide)
  have hSR_SL : FPath.leads
      (p.data_folder ++ ["archives_backup", today] ++ [REMOTE_ARC_NAME])
      (p.data_folder ++ ["archives_backup", today] ++ [LOCAL_ARC_NAME])
      = false :=
    leads_ext_ext (p.data_folder ++ ["archives_backup", today])
      REMOTE_ARC_NAME LOCAL_ARC_NAME [] (by decide)
  have hSL_AR : FPath.leads
      (p.data_folder ++ ["archives_backup", today] ++ [LOCAL_ARC_NAME])
      (p.data_folder ++ [REMOTE_ARC_NAME]) = false :=
    not_leads_of_length_lt (by
      simp only [List.length_append, List.length_cons, List.length_nil]
      omega)
  have hAR_SL : FPath.leads (p.data_folder ++ [REMOTE_ARC_NAME])
      (p.data_folder ++ ["archives_backup", today] ++ [LOCAL_ARC_NAME])
      = false := by
    rw [List.append_assoc]
    exact leads_ext_ext p.data_folder REMOTE_ARC_NAME "archives_backup"
      [today, LOCAL_ARC_NAME] (by decide)
  have hAL_SR : FPath.leads (p.data_folder ++ [LOCAL_ARC_NAME])
      (p.data_folder ++ ["archives_backup", today] ++ [REMOTE_ARC_NAME])
      = false := by
    rw [List.append_assoc]
    exact leads_ext_ext p.data_folder LOCAL_ARC_NAME "archives_backup"
      [today, REMOTE_ARC_NAME] (by decide)
  have hAL_AR : FPath.leads (p.data_folder ++ [LOCAL_ARC_NAME])
      (p.data_folder ++ [REMOTE_ARC_NAME]) = false :=
    leads_ext_ext p.data_folder LOCAL_ARC_NAME REMOTE_ARC_NAME [] (by decide)
  have hAR_AL : FPath.leads (p.data_folder ++ [REMOTE_ARC_NAME])
      (p.data_folder ++ [LOCAL_ARC_NAME]) = false :=
    leads_ext_ext p.data_folder REMOTE_ARC_NAME LOCAL_ARC_NAME [] (by decide)
  unfold start at hrun
  cases hpre : startLocalPreflight (lfs, rfs) with
  | mk s1 e1 =>
    rw [hpre] at hrun
    cases e1 with
    | some e =>
      rw [seqS_some] at hrun
      exact absurd hrun (by simp)
    | none =>
      rw [seqS_none] at hrun
      obtain ⟨lfs1, rfs1⟩ := s1
      have hpresq : ∀ q, FPath.leads p.data_folder q = true →
          lfs1.lookup q = lfs.lookup q := fun q hq =>
        (startLocalPreflight_preserves lfs rfs lfs1 rfs1 q
          (disj_no_common (wf_u_data hwf) hq)
          (disj_no_common (wf_ub_data hwf) hq) hpre).1
      by_cases hcr : p.contain_remote = true
      · rw [if_pos hcr] at hrun
        cases hrt : p.remote_type with
        | none =>
          rw [hrt] at hrun
          rw [seqS_some] at hrun
          exact absurd hrun (by simp)
        | some rt =>
          rw [hrt] at hrun
          dsimp only at hrun
          have hmain : ∀ rfs2 : FS,
              (seqS (startLocalStaging p today (lfs1, rfs2)) fun s3 =>
                seqS (if p.contain_remote then startRemoteStaging p rt today s3
                      else (s3, none)) fun s4 =>
                startCopyCfg p s4) = ((lfs', rfs'), none) →
              (lfs.pathExists (p.data_folder ++ [LOCAL_ARC_NAME]) = true →
               lfs.pathExists (p.data_folder ++ ["archives_backup", today] ++
                 [LOCAL_ARC_NAME]) = true →
               ∀ q, FPath.leads (p.data_folder ++ ["archives_backup", today]
                   ++ [LOCAL_ARC_NAME]) q = true →
                 lfs'.lookup q = lfs.lookup (p.data_folder ++
                   [LOCAL_ARC_NAME] ++ q.drop (p.data_folder ++
                     ["archives_backup", today] ++
                     [LOCAL_ARC_NAME]).length)) ∧
              (p.contain_remote = true →
               lfs.pathExists (p.data_folder ++ [REMOTE_ARC_NAME]) = true →
               lfs.pathExists (p.data_folder ++ ["archives_backup", today] ++
                 [REMOTE_ARC_NAME]) = true →
               ∀ q, FPath.leads (p.data_folder ++ ["archives_backup", today]
                   ++ [REMOTE_ARC_NAME]) q = true →
                 lfs'.lookup q = lfs.lookup (p.data_folder ++
                   [REMOTE_ARC_NAME] ++ q.drop (p.data_folder ++
                     ["archives_backup", today] ++
                     [REMOTE_ARC_NAME]).length)) := by
            intro rfs2 h
            cases hst : startLocalStaging p today (lfs1, rfs2) with
            | mk s3 e3 =>
              rw [hst] at h
              cases e3 with
              | some e =>
                rw [seqS_some] at h
                exact absurd h (by simp)
              | none =>
                rw [seqS_none] at h
                obtain ⟨lfs3, rfs3⟩ := s3
                rw [if_pos hcr] at h
                cases hrem : startRemoteStaging p rt today (lfs3, rfs3) with
                | mk s4 e4 =>
                  rw [hrem] at h
                  cases e4 with
                  | some e =>
                    rw [seqS_some] at h
                    exact absurd h (by simp)
                  | none =>
                    rw [seqS_none] at h
                    obtain ⟨lfs4, rfs4⟩ := s4
                    constructor
                    · intro harc hslot q hq
                      have harc1 : lfs1.pathExists
                          (p.data_folder ++ [LOCAL_ARC_NAME]) = true := by
                        unfold FS.pathExists
                        rw [hpresq _ hld_alP]
                        exact harc
                      have hslot1 : lfs1.pathExists
                          (p.data_folder ++ ["archives_backup", today] ++
                            [LOCAL_ARC_NAME]) = true := by
                        unfold FS.pathExists
                        rw [hpresq _ hld_slotL]
                        exact hslot
                      obtain ⟨hcontent, _⟩ := startLocalStaging_slot_content
                        p today lfs1 rfs2 lfs3 rfs3 hwf harc1 hslot1 hst
                      have hqB : FPath.leads q
                          (p.data_folder ++ ["archives_backup", today])
                          = false := not_leads_of_length_lt (by
                        have hlen := FPath.leads_length hq
                        simp only [List.length_append, List.length_cons,
                          List.length_nil] at hlen ⊢
                        omega)
                      have h4 : lfs4.lookup q = lfs3.lookup q :=
                        startRemoteStaging_preserves_local p rt today lfs3
                          rfs3 lfs4 rfs4 q hqB
                          (not_leads_across hSR_SL hSL_SR hq)
                          (not_leads_across hAR_SL hSL_AR hq) hrem
                      have h5 : lfs'.lookup q = lfs4.lookup q :=
                        startCopyCfg_preserves p lfs4 rfs4 lfs' rfs' q
                          (hU q (FPath.leads_trans hld_slotL hq)) h
                      rw [h5, h4, hcontent q hq, hpresq _ (hled_ext_L _)]
                    · intro _ harcR hslotR q hq
                      have harcR3 : lfs3.pathExists
                          (p.data_folder ++ [REMOTE_ARC_NAME]) = true := by
                        unfold FS.pathExists
                        rw [startLocalStaging_untouched p today lfs1 rfs2
                          lfs3 rfs3 (p.data_folder ++ [REMOTE_ARC_NAME])
                          (hU _ hld_arP) hAB_R hSL_AR hAL_AR hst,
                          hpresq _ hld_arP]
                        exact harcR
                      have hslotR3 : lfs3.pathExists
                          (p.data_folder ++ ["archives_backup", today] ++
                            [REMOTE_ARC_NAME]) = true := by
                        unfold FS.pathExists
                        rw [startLocalStaging_untouched p today lfs1 rfs2
                          lfs3 rfs3 (p.data_folder ++
                            ["archives_backup", today] ++ [REMOTE_ARC_NAME])
                          (hU _ hld_slotR) hSb_R hSL_SR hAL_SR hst,
                          hpresq _ hld_slotR]
                        exact hslotR
                      have hcontentR := startRemoteStaging_slot_content
                        p rt today lfs3 rfs3 lfs4 rfs4 harcR3 hslotR3 hrem
                      have h5 : lfs'.lookup q = lfs4.lookup q :=
                        startCopyCfg_preserves p lfs4 rfs4 lfs' rfs' q
                          (hU q (FPath.leads_trans hld_slotR hq)) h
                      rw [h5, hcontentR q hq,
                        startLocalStaging_untouched p today lfs1 rfs2 lfs3
                          rfs3 (p.data_folder ++ [REMOTE_ARC_NAME] ++
                            q.drop (p.data_folder ++
                              ["archives_backup", today] ++
                              [REMOTE_ARC_NAME]).length)
                          (hU _ (hled_ext_R _)) (not_leads_ext hAB_R _)
                          (not_leads_into_tree hSL_AR hAR_SL _)
                          (not_leads_into_tree hAL_AR hAR_AL _) hst,
                        hpresq _ (hled_ext_R _)]
          unfold startRemotePreflight at hrun
          dsimp only at hrun
          by_cases hex : unison_exists rfs1 = true
          · rw [if_pos hex] at hrun
            by_cases hbk : unison_backup_exists rfs1 = true
            · rw [if_pos hbk, seqS_some] at hrun
              exact absurd hrun (by simp)
            · rw [if_neg hbk] at hrun
              cases hmv : move_remote_unison_to_backup rt rfs1 with
              | error e =>
                rw [hmv] at hrun
                dsimp only at hrun
                rw [seqS_some] at hrun
                exact absurd hrun (by simp)
              | ok rfs2 =>
                rw [hmv] at hrun
                dsimp only at hrun
                rw [seqS_none] at hrun
                exact hmain rfs2 hrun
          · rw [if_neg hex] at hrun
            rw [seqS_none] at hrun
            exact hmain rfs1 hrun
      · rw [if_neg hcr, seqS_none] at hrun
        cases hst : startLocalStaging p today (lfs1, rfs1) with
        | mk s3 e3 =>
          rw [hst] at hrun
          cases e3 with
          | some e =>
            rw [seqS_some] at hrun
            exact absurd hrun (by simp)
          | none =>
            rw [seqS_none] at hrun
            obtain ⟨lfs3, rfs3⟩ := s3
            rw [if_neg hcr, seqS_none] at hrun
            constructor
            · intro harc hslot q hq
              have harc1 : lfs1.pathExists
                  (p.data_folder ++ [LOCAL_ARC_NAME]) = true := by
                unfold FS.pathExists
                rw [hpresq _ hld_alP]
                exact harc
              have hslot1 : lfs1.pathExists
                  (p.data_folder ++ ["archives_backup", today] ++
                    [LOCAL_ARC_NAME]) = true := by
                unfold FS.pathExists
                rw [hpresq _ hld_slotL]
                exact hslot
              obtain ⟨hcontent, _⟩ := startLocalStaging_slot_content
                p today lfs1 rfs1 lfs3 rfs3 hwf harc1 hslot1 hst
              have h5 : lfs'.lookup q = lfs3.lookup q :=
                startCopyCfg_preserves p lfs3 rfs3 lfs' rfs' q
                  (hU q (FPath.leads_trans hld_slotL hq)) hrun
              rw [h5, hcontent q hq, hpresq _ (hled_ext_L _)]
            · intro hcr2 _ _
              exact absurd hcr2 hcr

/-- Second-start local filesystem for the C8 witness: both staging
archives with fresh content, a sync-state directory left by the first
run, and the day's dated slots holding the first run's content. -/
def lfsC8 : FS :=
  [(homeP, Entry.dir), (["d"], Entry.dir), (["d", "a"], Entry.dir),
   (["d", "a.prf"], Entry.file "cfgtext"),
   (["d", "a", "archives_local"], Entry.dir),
   (["d", "a", "archives_local", "new.txt"], Entry.file "NEW"),
   (["d", "a", "archives_remote"], Entry.dir),
   (["d", "a", "archives_remote", "newr.txt"], Entry.file "NEWR"),
   (u_folder, Entry.dir),
   (["d", "a", "archives_backup"], Entry.dir),
   (["d", "a", "archives_backup", "20260101"], Entry.dir),
   (["d", "a", "archives_backup", "20260101", "archives_local"], Entry.dir),
   (["d", "a", "archives_backup", "20260101", "archives_local", "old.txt"],
     Entry.file "OLD"),
   (["d", "a", "archives_backup", "20260101", "archives_remote"], Entry.dir),
   (["d", "a", "archives_backup", "20260101", "archives_remote", "oldr.txt"],
     Entry.file "OLDR")]

/-- Witness for C8: after the second same-day start of a remote
profile, each dated slot holds its fresh archive content (and, by the
theorem, nothing else). -/
theorem C8_witness :
    (start pRem "20260101" (lfsC8, rfsC4)).1.1.lookup
        ["d", "a", "archives_backup", "20260101", "archives_local",
          "new.txt"] =
      lfsC8.lookup ["d", "a", "archives_local", "new.txt"] ∧
    (start pRem "20260101" (lfsC8, rfsC4)).1.1.lookup
        ["d", "a", "archives_backup", "20260101", "archives_remote",
          "newr.txt"] =
      lfsC8.lookup ["d", "a", "archives_remote", "newr.txt"] := by
  have h : start pRem "20260101" (lfsC8, rfsC4) =
      (((start pRem "20260101" (lfsC8, rfsC4)).1.1,
        (start pRem "20260101" (lfsC8, rfsC4)).1.2), none) := by decide
  have h2 := C8_second_start_same_day_replaces_slot pRem "20260101" lfsC8
    rfsC4 (start pRem "20260101" (lfsC8, rfsC4)).1.1
    (start pRem "20260101" (lfsC8, rfsC4)).1.2 (by decide) h
  refine ⟨(h2.1 (by decide) (by decide)
      ["d", "a", "archives_backup", "20260101", "archives_local", "new.txt"]
      (by decide)).trans (by decide),
    (h2.2 (by decide) (by decide) (by decide)
      ["d", "a", "archives_backup", "20260101", "archives_remote",
        "newr.txt"] (by decide)).trans (by decide)⟩

/-! ## C1: the start/restore round trip on clean hosts -/

theorem disj_left {a b : FPath} (h : pathDisj a b = true) :
    FPath.leads a b = false := by
  have h1 := (Bool.and_eq_true_iff.mp h).1
  simpa using h1

theorem disj_right {a b : FPath} (h : pathDisj a b = true) :
    FPath.leads b a = false := by
  have h1 := (Bool.and_eq_true_iff.mp h).2
  simpa using h1

/-- C1 counterexample: on a clean local-only profile, `start()` then
`restore()` both succeed, but no Dated Backup-Archive folder for the
day exists afterwards (the claim requires exactly one), and the data
folder instead gained an empty local staging-archive folder that was
not there before. -/
theorem C1_counterexample :
    (start pLoc "20260101" (lfsBase, [])).2 = none ∧
    (restore pLoc (start pLoc "20260101" (lfsBase, [])).1).2.1 = none ∧
    (restore pLoc (start pLoc "20260101" (lfsBase, [])).1).1.1.lookup
      ["d", "a", "archives_backup", "20260101"] = none ∧
    (restore pLoc (start pLoc "20260101" (lfsBase, [])).1).1.1.lookup
      ["d", "a", "archives_backup"] = none ∧
    (restore pLoc (start pLoc "20260101" (lfsBase, [])).1).1.1.lookup
      ["d", "a", "archives_local"] = some Entry.dir ∧
    lfsBase.lookup ["d", "a", "archives_local"] = none := by
  exact ⟨by decide, by decide, by decide, by decide, by decide, by decide⟩

/-- C1 amended: for a wellformed local-only profile whose hosts have
no sync-state directory, no backup and no staging archives, `start()`
then `restore()` succeeds and leaves the sync-state directory absent
and the data folder unchanged except for exactly one new empty local
staging-archive folder (`archives_local`); no Dated Backup-Archive
folder is created. -/
theorem C1_amended_clean_roundtrip (p : Profile) (today : String)
    (lfs rfs : FS) (c : String)
    (hlocal : p.contain_remote = false)
    (hwf : Profile.wf p = true)
    (hhome : lfs.isDir homeP = true)
    (hdataF : lfs.isDir p.data_folder = true)
    (hcfg : lfs.lookup p.cfg_file = some (Entry.file c))
    (hu : ∀ q, FPath.leads u_folder q = true → lfs.lookup q = none)
    (hb : lfs.lookup u_backup_folder = none)
    (hla : lfs.lookup (p.data_folder ++ [LOCAL_ARC_NAME]) = none) :
    ∃ lfsS lfsR tr,
      start p today (lfs, rfs) = ((lfsS, rfs), none) ∧
      restore p (lfsS, rfs) = ((lfsR, rfs), none, tr) ∧
      lfsR.pathExists u_folder = false ∧
      (∀ q, lfsR.lookup q =
        if q = p.data_folder ++ [LOCAL_ARC_NAME] then some Entry.dir
        else lfs.lookup q) := by
  -- disjointness facts
  have hne_u_cfg : ¬(u_folder = p.cfg_file) := by
    intro he
    have h1 := hu u_folder (FPath.leads_refl u_folder)
    rw [he, hcfg] at h1
    exact Option.noConfusion h1
  have hne_cfgiu_u : ¬(u_folder ++ [p.cfgName] = u_folder) := by
    intro he
    have := congrArg List.length he
    simp at this
  have hld_alP : FPath.leads p.data_folder
      (p.data_folder ++ [LOCAL_ARC_NAME]) = true := FPath.leads_append _ _
  have hne_u_alp : ¬(u_folder = p.data_folder ++ [LOCAL_ARC_NAME]) := by
    intro he
    have h1 : FPath.leads p.data_folder u_folder = true := by
      rw [he]
      exact hld_alP
    rw [disj_right (wf_u_data hwf)] at h1
    exact Bool.noConfusion h1
  have hne_u_dataF : ¬(u_folder = p.data_folder) := by
    intro he
    have h1 : FPath.leads u_folder p.data_folder = true := by
      rw [← he]
      exact FPath.leads_refl u_folder
    rw [disj_left (wf_u_data hwf)] at h1
    exact Bool.noConfusion h1
  have hcfgiu_under_u : FPath.leads u_folder (u_folder ++ [p.cfgName]) = true :=
    FPath.leads_append _ _
  have hne_cfgiu_alp : ¬(u_folder ++ [p.cfgName] =
      p.data_folder ++ [LOCAL_ARC_NAME]) := by
    intro he
    have h1 : FPath.leads u_folder (p.data_folder ++ [LOCAL_ARC_NAME])
        = true := by
      rw [← he]
      exact hcfgiu_under_u
    rw [disj_no_common (wf_u_data hwf) hld_alP] at h1
    exact Bool.noConfusion h1
  have hne_cfgiu_dataF : ¬(u_folder ++ [p.cfgName] = p.data_folder) := by
    intro he
    have h1 : FPath.leads u_folder p.data_folder = true := by
      rw [← he]
      exact hcfgiu_under_u
    rw [disj_left (wf_u_data hwf)] at h1
    exact Bool.noConfusion h1
  have hne_cfgiu_ub : ¬(u_folder ++ [p.cfgName] = u_backup_folder) := by
    intro he
    have h1 : FPath.leads u_folder u_backup_folder = true := by
      rw [← he]
      exact hcfgiu_under_u
    have h2 : FPath.leads u_folder u_backup_folder = false := by decide
    rw [h2] at h1
    exact Bool.noConfusion h1
  have hne_u_ub : ¬(u_folder = u_backup_folder) := by decide
  have hpeU : lfs.pathExists u_folder = false :=
    FS.pathExists_eq_false.mpr (hu u_folder (FPath.leads_refl u_folder))
  -- the state after start
  have hpre : startLocalPreflight (lfs, rfs) = ((lfs, rfs), none) := by
    unfold startLocalPreflight
    dsimp only
    rw [if_neg (ne_true_of_eq_false hpeU)]
  have hmk : mkdirP lfs u_folder = Except.ok ((u_folder, Entry.dir) :: lfs) :=
    mkdirP_ok hpeU hhome
  have hstg : startLocalStaging p today (lfs, rfs) =
      (((u_folder, Entry.dir) :: lfs, rfs), none) := by
    unfold startLocalStaging
    dsimp only
    rw [if_pos (by simp [FS.pathExists_eq_false.mpr hla]), hmk]
  have hlk1 : FS.lookup ((u_folder, Entry.dir) :: lfs) p.cfg_file =
      some (Entry.file c) := by
    rw [FS.lookup_cons, if_neg hne_u_cfg]
    exact hcfg
  have hdir1 : FS.isDir ((u_folder, Entry.dir) :: lfs)
      (u_folder ++ [p.cfgName]).dropLast = true := by
    have hdl : (u_folder ++ [p.cfgName]).dropLast = u_folder := by simp
    rw [hdl]
    unfold FS.isDir
    rw [FS.lookup_cons, if_pos rfl]
  have hcc : startCopyCfg p ((u_folder, Entry.dir) :: lfs, rfs) =
      (((u_folder ++ [p.cfgName], Entry.file c) ::
        (u_folder, Entry.dir) :: lfs, rfs), none) := by
    unfold startCopyCfg
    dsimp only
    rw [copyFileP_ok hlk1 hdir1]
  have hstart : start p today (lfs, rfs) =
      (((u_folder ++ [p.cfgName], Entry.file c) ::
        (u_folder, Entry.dir) :: lfs, rfs), none) := by
    unfold start
    rw [hpre, seqS_none, if_neg (by simp [hlocal]), seqS_none, hstg,
      seqS_none, if_neg (by simp [hlocal]), seqS_none, hcc]
  -- the state after restore
  have hlkSu : FS.lookup ((u_folder ++ [p.cfgName], Entry.file c) ::
      (u_folder, Entry.dir) :: lfs) u_folder = some Entry.dir := by
    rw [FS.lookup_cons, if_neg hne_cfgiu_u, FS.lookup_cons, if_pos rfl]
  have hchk1 : (FS.pathExists ((u_folder ++ [p.cfgName], Entry.file c) ::
      (u_folder, Entry.dir) :: lfs) u_folder &&
      FS.isDir ((u_folder ++ [p.cfgName], Entry.file c) ::
        (u_folder, Entry.dir) :: lfs) u_folder) = true := by
    unfold FS.pathExists FS.isDir
    rw [hlkSu]
    rfl
  have hchk2 : FS.pathExists ((u_folder ++ [p.cfgName], Entry.file c) ::
      (u_folder, Entry.dir) :: lfs) (u_folder ++ [p.cfgName]) = true := by
    unfold FS.pathExists
    rw [FS.lookup_cons, if_pos rfl]
    rfl
  have hunl : unlinkP ((u_folder ++ [p.cfgName], Entry.file c) ::
      (u_folder, Entry.dir) :: lfs) (u_folder ++ [p.cfgName]) =
      Except.ok (FS.erase ((u_folder ++ [p.cfgName], Entry.file c) ::
        (u_folder, Entry.dir) :: lfs) (u_folder ++ [p.cfgName])) := by
    unfold unlinkP
    rw [if_pos hchk2]
  -- lookups in the erased state
  have hlkE : ∀ q, FS.lookup (FS.erase ((u_folder ++ [p.cfgName],
      Entry.file c) :: (u_folder, Entry.dir) :: lfs)
      (u_folder ++ [p.cfgName])) q =
      if q = u_folder ++ [p.cfgName] then none
      else if u_folder = q then some Entry.dir
      else lfs.lookup q := by
    intro q
    rw [FS.lookup_erase]
    by_cases hq : q = u_folder ++ [p.cfgName]
    · rw [if_pos hq, if_pos hq]
    · rw [if_neg hq, if_neg hq, FS.lookup_cons,
        if_neg (fun he => hq he.symm), FS.lookup_cons]
  have hmvSrc : FS.pathExists (FS.erase ((u_folder ++ [p.cfgName],
      Entry.file c) :: (u_folder, Entry.dir) :: lfs)
      (u_folder ++ [p.cfgName])) u_folder = true := by
    unfold FS.pathExists
    rw [hlkE, if_neg (fun he => hne_cfgiu_u he.symm), if_pos rfl]
    rfl
  have hmvDst : FS.isDir (FS.erase ((u_folder ++ [p.cfgName],
      Entry.file c) :: (u_folder, Entry.dir) :: lfs)
      (u_folder ++ [p.cfgName])) (p.data_folder ++ [LOCAL_ARC_NAME])
      = false := by
    unfold FS.isDir
    rw [hlkE, if_neg (fun he => hne_cfgiu_alp he.symm), if_neg hne_u_alp,
      hla]
  have hmvPar : FS.isDir (FS.erase ((u_folder ++ [p.cfgName],
      Entry.file c) :: (u_folder, Entry.dir) :: lfs)
      (u_folder ++ [p.cfgName])) (p.data_folder ++ [LOCAL_ARC_NAME]).dropLast
      = true := by
    have hdl : (p.data_folder ++ [LOCAL_ARC_NAME]).dropLast = p.data_folder :=
      by simp
    rw [hdl]
    unfold FS.isDir
    rw [hlkE, if_neg (fun he => hne_cfgiu_dataF he.symm),
      if_neg hne_u_dataF, FS.isDir_iff.mp hdataF]
  have hmv : shutilMove (FS.erase ((u_folder ++ [p.cfgName], Entry.file c) ::
      (u_folder, Entry.dir) :: lfs) (u_folder ++ [p.cfgName])) u_folder
      (p.data_folder ++ [LOCAL_ARC_NAME]) =
      Except.ok ((FS.erase ((u_folder ++ [p.cfgName], Entry.file c) ::
        (u_folder, Entry.dir) :: lfs) (u_folder ++ [p.cfgName])).moveTree
        u_folder (p.data_folder ++ [LOCAL_ARC_NAME])) :=
    shutilMove_ok hmvSrc hmvDst hmvPar
  -- the final lookups
  have hfin : ∀ q, FS.lookup ((FS.erase ((u_folder ++ [p.cfgName],
      Entry.file c) :: (u_folder, Entry.dir) :: lfs)
      (u_folder ++ [p.cfgName])).moveTree u_folder
      (p.data_folder ++ [LOCAL_ARC_NAME])) q =
      if q = p.data_folder ++ [LOCAL_ARC_NAME] then some Entry.dir
      else lfs.lookup q := by
    intro q
    unfold FS.moveTree
    rw [FS.lookup_append, FS.lookup_subtreeTo, FS.lookup_rmtree]
    by_cases hqa : q = p.data_folder ++ [LOCAL_ARC_NAME]
    · subst hqa
      rw [if_pos (FPath.leads_refl _), List.drop_length, List.append_nil,
        hlkE, if_neg (fun he => hne_cfgiu_u he.symm), if_pos rfl, if_pos rfl]
    · by_cases hlq : FPath.leads (p.data_folder ++ [LOCAL_ARC_NAME]) q = true
      · obtain ⟨rq, rfl⟩ := FPath.leads_iff.mp hlq
        rw [if_pos hlq, List.drop_left, hlkE]
        have hulq : FPath.leads u_folder
            (p.data_folder ++ [LOCAL_ARC_NAME] ++ rq) = false :=
          disj_no_common (wf_u_data hwf) (by
            rw [List.append_assoc]
            exact FPath.leads_append _ _)
        have hfirst_none : (if u_folder ++ rq = u_folder ++ [p.cfgName]
            then none
            else if u_folder = u_folder ++ rq then some Entry.dir
            else lfs.lookup (u_folder ++ rq)) = none := by
          by_cases hrq : u_folder ++ rq = u_folder ++ [p.cfgName]
          · rw [if_pos hrq]
          · rw [if_neg hrq]
            have hrqne : ¬(u_folder = u_folder ++ rq) := by
              intro he
              have hlen := congrArg List.length he
              rw [List.length_append] at hlen
              have h0 : rq = [] := List.length_eq_zero.mp (by omega)
              subst h0
              exact hqa (by rw [List.append_nil])
            rw [if_neg hrqne]
            exact hu _ (FPath.leads_append _ _)
        rw [hfirst_none, if_neg (ne_true_of_eq_false hulq), hlkE]
        have hq_ne_cfgiu : ¬(p.data_folder ++ [LOCAL_ARC_NAME] ++ rq =
            u_folder ++ [p.cfgName]) := by
          intro he
          have h1 : FPath.leads u_folder
              (p.data_folder ++ [LOCAL_ARC_NAME] ++ rq) = true := by
            rw [he]
            exact hcfgiu_under_u
          rw [hulq] at h1
          exact Bool.noConfusion h1
        have hq_ne_u : ¬(u_folder = p.data_folder ++ [LOCAL_ARC_NAME] ++ rq)
            := by
          intro he
          have h1 : FPath.leads u_folder
              (p.data_folder ++ [LOCAL_ARC_NAME] ++ rq) = true := by
            rw [← he]
            exact FPath.leads_refl _
          rw [hulq] at h1
          exact Bool.noConfusion h1
        rw [if_neg hq_ne_cfgiu, if_neg hq_ne_u, if_neg hqa]
      · rw [if_neg hlq]
        by_cases huq : FPath.leads u_folder q = true
        · rw [if_pos huq, if_neg hqa, hu q huq]
        · have hq_ne_cfgiu : ¬(q = u_folder ++ [p.cfgName]) := by
            intro he
            apply huq
            rw [he]
            exact hcfgiu_under_u
          have hq_ne_u : ¬(u_folder = q) := by
            intro he
            apply huq
            rw [← he]
            exact FPath.leads_refl _
          rw [if_neg huq, hlkE, if_neg hq_ne_cfgiu, if_neg hq_ne_u,
            if_neg hqa]
  -- backup-slot check in restore
  have hne_ub_alp : ¬(u_backup_folder = p.data_folder ++ [LOCAL_ARC_NAME])
      := by
    intro he
    have h1 : FPath.leads p.data_folder u_backup_folder = true := by
      rw [he]
      exact hld_alP
    rw [disj_right (wf_ub_data hwf)] at h1
    exact Bool.noConfusion h1
  have hbk : FS.pathExists ((FS.erase ((u_folder ++ [p.cfgName],
      Entry.file c) :: (u_folder, Entry.dir) :: lfs)
      (u_folder ++ [p.cfgName])).moveTree u_folder
      (p.data_folder ++ [LOCAL_ARC_NAME])) u_backup_folder = false := by
    unfold FS.pathExists
    rw [hfin, if_neg hne_ub_alp, hb]
    rfl
  -- restore as a whole
  have hrest : restore p ((u_folder ++ [p.cfgName], Entry.file c) ::
      (u_folder, Entry.dir) :: lfs, rfs) =
      (((FS.erase ((u_folder ++ [p.cfgName], Entry.file c) ::
          (u_folder, Entry.dir) :: lfs) (u_folder ++ [p.cfgName])).moveTree
          u_folder (p.data_folder ++ [LOCAL_ARC_NAME]), rfs), none,
        [Ev.unlinkCfg, Ev.moveToLocalArchive]) := by
    unfold restore
    dsimp only
    rw [if_neg (by rw [hchk1]; decide), if_neg (by rw [hchk2]; decide),
      hunl]
    dsimp only
    rw [hmv]
    dsimp only
    rw [if_neg (ne_true_of_eq_false hbk)]
    unfold restoreRemotePhase
    dsimp only
    rw [if_neg (by simp [hlocal])]
  refine ⟨(u_folder ++ [p.cfgName], Entry.file c) ::
    (u_folder, Entry.dir) :: lfs,
    (FS.erase ((u_folder ++ [p.cfgName], Entry.file c) ::
      (u_folder, Entry.dir) :: lfs) (u_folder ++ [p.cfgName])).moveTree
      u_folder (p.data_folder ++ [LOCAL_ARC_NAME]),
    [Ev.unlinkCfg, Ev.moveToLocalArchive], hstart, hrest, ?_, hfin⟩
  unfold FS.pathExists
  rw [hfin, if_neg hne_u_alp, hu u_folder (FPath.leads_refl _)]
  rfl

theorem lookup_none_of_keys_out {a : FPath} (fs : FS) :
    fs.all (fun kv => !FPath.leads a kv.1) = true →
    ∀ q, FPath.leads a q = true → fs.lookup q = none := by
  induction fs with
  | nil =>
    intro _ q _
    rfl
  | cons kv rest ih =>
    obtain ⟨k, e⟩ := kv
    intro h q hq
    rw [List.all_cons, Bool.and_eq_true] at h
    have hk : FPath.leads a k = false := by
      have h1 := h.1
      simp only [Bool.not_eq_true'] at h1
      exact h1
    have hne : ¬(k = q) := by
      intro he
      rw [he, hq] at hk
      exact Bool.noConfusion hk
    rw [FS.lookup_cons, if_neg hne]
    exact ih h.2 q hq

/-- Witness for C1 amended: the clean local-only profile `pLoc` on the
base filesystem round-trips and gains exactly the empty
`archives_local` folder. -/
theorem C1_witness :
    ∃ lfsS lfsR tr,
      start pLoc "20260101" (lfsBase, []) = ((lfsS, []), none) ∧
      restore pLoc (lfsS, []) = ((lfsR, []), none, tr) ∧
      lfsR.pathExists u_folder = false ∧
      (∀ q, lfsR.lookup q =
        if q = pLoc.data_folder ++ [LOCAL_ARC_NAME] then some Entry.dir
        else lfsBase.lookup q) :=
  C1_amended_clean_roundtrip pLoc "20260101" lfsBase [] "cfgtext"
    (by decide) (by decide) (by decide) (by decide) (by decide)
    (lookup_none_of_keys_out lfsBase (by decide)) (by decide) (by decide)

end UWrapper
